import Mathlib

/-!
Shallow embedding of the realtime lobby-and-session relay backend
(src/backend/app): the lobby registry (lobby_manager.py), the session
registry (game_manager.py), the matchmaker, and the two WebSocket
endpoint handlers (sockets/lobby.py, sockets/game.py), together with the
parallel variant in services/managers.py.

Python dictionaries are modelled as association lists preserving
insertion order (updates keep the key position, fresh keys append),
WebSocket handles as opaque naturals, payload sends as an event list,
the asyncio timer tables as lists of armed ids, and relayed opaque game
state as a natural number (the code stores and forwards it verbatim).
-/

namespace SuperbGame

/-- Configuration constant MAX_NAME_LENGTH from the services constants. -/
def MAX_NAME_LENGTH : Nat := 24

/-- Configuration constant RECONNECT_GRACE_SECONDS from the services constants. -/
def RECONNECT_GRACE_SECONDS : Nat := 10

/-- Configuration constant SESSION_CLEANUP_GRACE_SECONDS from the services constants. -/
def SESSION_CLEANUP_GRACE_SECONDS : Nat := 20

/-! ### Association lists (Python dict, insertion ordered) -/

/-- Dict lookup: first binding of key k (keys are unique by construction). -/
def alookup (k : String) : List (String × α) → Option α
  | [] => none
  | (k1, v) :: rest => if k1 = k then some v else alookup k rest

/-- Dict write d[k] = v: update in place if present, else append (Python 3.7+ order). -/
def aupdate (k : String) (v : α) : List (String × α) → List (String × α)
  | [] => [(k, v)]
  | (k1, v1) :: rest => if k1 = k then (k, v) :: rest else (k1, v1) :: aupdate k v rest

/-- Dict d.pop(k, None): drop the binding of key k. -/
def aerase (k : String) : List (String × α) → List (String × α)
  | [] => []
  | (k1, v1) :: rest => if k1 = k then rest else (k1, v1) :: aerase k rest

/-- Number of bindings of key k (1 for a well-formed dict holding k). -/
def countKey (k : String) (l : List (String × α)) : Nat :=
  (l.filter (fun q => q.1 = k)).length

/-- Python list.remove(x) guarded by membership: drop the first occurrence. -/
def removeFirst (x : String) : List String → List String
  | [] => []
  | y :: rest => if y = x then rest else y :: removeFirst x rest

theorem alookup_aupdate_self (k : String) (v : α) (l : List (String × α)) :
    alookup k (aupdate k v l) = some v := by
  induction l with
  | nil => simp [aupdate, alookup]
  | cons q rest ih =>
      by_cases h : q.1 = k
      · simp [aupdate, alookup, h]
      · simp [aupdate, alookup, h, ih]

theorem alookup_aupdate_ne (k k1 : String) (v : α) (l : List (String × α)) (h : k1 ≠ k) :
    alookup k1 (aupdate k v l) = alookup k1 l := by
  have h1 : ¬ k = k1 := fun hh => h hh.symm
  induction l with
  | nil => simp [aupdate, alookup, h1]
  | cons q rest ih =>
      by_cases hq : q.1 = k
      · subst hq
        simp [aupdate, alookup, h1]
      · simp [aupdate, alookup, hq, ih]

theorem alookup_aerase_self (k : String) (l : List (String × α))
    (hkeys : (l.map Prod.fst).Nodup) : alookup k (aerase k l) = none := by
  induction l with
  | nil => simp [aerase, alookup]
  | cons q rest ih =>
      simp only [List.map_cons, List.nodup_cons] at hkeys
      by_cases h : q.1 = k
      · subst h
        cases hfind : alookup q.1 rest with
        | none => simp [aerase, hfind]
        | some v =>
            exfalso
            apply hkeys.1
            clear ih hkeys
            induction rest with
            | nil => simp [alookup] at hfind
            | cons r rrest ih2 =>
                simp only [alookup] at hfind
                by_cases hr : r.1 = q.1
                · exact List.mem_map.2 ⟨r, List.mem_cons_self _ _, hr⟩
                · simp only [hr, if_false] at hfind
                  exact List.mem_cons_of_mem _ (ih2 hfind)
      · simp [aerase, alookup, h, ih hkeys.2]

theorem alookup_aerase_ne (k k1 : String) (l : List (String × α)) (h : k1 ≠ k) :
    alookup k1 (aerase k l) = alookup k1 l := by
  have h1 : ¬ k = k1 := fun hh => h hh.symm
  induction l with
  | nil => simp [aerase]
  | cons q rest ih =>
      by_cases hq : q.1 = k
      · subst hq
        simp [aerase, alookup, h1]
      · simp [aerase, alookup, hq, ih]

theorem alookup_isSome_of_mem_keys (k : String) (l : List (String × α))
    (h : k ∈ l.map Prod.fst) : (alookup k l).isSome = true := by
  induction l with
  | nil => simp at h
  | cons q rest ih =>
      simp only [List.map_cons, List.mem_cons] at h
      by_cases hq : q.1 = k
      · simp [alookup, hq]
      · rcases h with h | h
        · exact absurd h.symm hq
        · simp [alookup, hq, ih h]

theorem mem_keys_of_alookup_isSome (k : String) (l : List (String × α))
    (h : (alookup k l).isSome = true) : k ∈ l.map Prod.fst := by
  induction l with
  | nil => simp [alookup] at h
  | cons q rest ih =>
      by_cases hq : q.1 = k
      · simp [hq]
      · simp only [alookup, hq, if_false] at h
        simp [ih h]

theorem keys_aupdate (k : String) (v : α) (l : List (String × α)) :
    (aupdate k v l).map Prod.fst =
      if k ∈ l.map Prod.fst then l.map Prod.fst else l.map Prod.fst ++ [k] := by
  induction l with
  | nil => simp [aupdate]
  | cons q rest ih =>
      by_cases hq : q.1 = k
      · simp [aupdate, hq]
      · have : ¬ k = q.1 := fun hh => hq hh.symm
        by_cases hm : k ∈ rest.map Prod.fst
        · simp [aupdate, hq, ih, hm, this]
        · simp [aupdate, hq, ih, hm, this]

theorem keys_nodup_aupdate (k : String) (v : α) (l : List (String × α))
    (h : (l.map Prod.fst).Nodup) : ((aupdate k v l).map Prod.fst).Nodup := by
  rw [keys_aupdate]
  by_cases hm : k ∈ l.map Prod.fst
  · simpa [hm] using h
  · simp only [hm, if_false]
    exact List.Nodup.append h (List.nodup_singleton k) (by
      intro a ha hb
      simp only [List.mem_singleton] at hb
      exact hm (hb ▸ ha))

theorem countKey_eq_one_of_nodup (k : String) (l : List (String × α))
    (hkeys : (l.map Prod.fst).Nodup) (h : (alookup k l).isSome = true) :
    countKey k l = 1 := by
  induction l with
  | nil => simp [alookup] at h
  | cons q rest ih =>
      simp only [List.map_cons, List.nodup_cons] at hkeys
      by_cases hq : q.1 = k
      · subst hq
        have hrest : countKey q.1 rest = 0 := by
          unfold countKey
          rw [List.length_eq_zero]
          rw [List.filter_eq_nil_iff]
          intro a ha
          simp only [decide_eq_true_eq]
          intro hak
          exact hkeys.1 (List.mem_map.2 ⟨a, ha, hak⟩)
        simp [countKey] at hrest ⊢
        exact hrest
      · simp only [alookup, hq, if_false] at h
        have := ih hkeys.2 h
        simpa [countKey, hq] using this

theorem mem_removeFirst (x y : String) (l : List String) (h : y ∈ removeFirst x l) :
    y ∈ l := by
  induction l with
  | nil => simp [removeFirst] at h
  | cons z rest ih =>
      by_cases hz : z = x
      · subst hz
        simp only [removeFirst, if_true] at h
        exact List.mem_cons_of_mem _ h
      · simp only [removeFirst, hz, if_false, List.mem_cons] at h
        rcases h with h | h
        · exact h ▸ List.mem_cons_self _ _
        · exact List.mem_cons_of_mem _ (ih h)

theorem not_mem_removeFirst_of_nodup (x : String) (l : List String)
    (hl : l.Nodup) : x ∉ removeFirst x l := by
  induction l with
  | nil => simp [removeFirst]
  | cons z rest ih =>
      simp only [List.nodup_cons] at hl
      by_cases hz : z = x
      · subst hz
        simpa [removeFirst] using hl.1
      · simp only [removeFirst, hz, if_false, List.mem_cons]
        rintro (h | h)
        · exact hz h.symm
        · exact ih hl.2 h

theorem nodup_removeFirst (x : String) (l : List String) (hl : l.Nodup) :
    (removeFirst x l).Nodup := by
  induction l with
  | nil => simp [removeFirst]
  | cons z rest ih =>
      simp only [List.nodup_cons] at hl
      by_cases hz : z = x
      · simpa [removeFirst, hz] using hl.2
      · simp only [removeFirst, hz, if_false, List.nodup_cons]
        exact ⟨fun h => hl.1 (mem_removeFirst _ _ _ h), ih hl.2⟩

/-! ### Wire messages and send events -/

/-- One row of the lobby_state players payload (LobbyManager.snapshot). -/
structure PlayerView where
  id : String
  name : String
  isReady : Bool
  isConnected : Bool
deriving DecidableEq, Repr

/-- Server-to-client payloads relevant to the verified handlers. Opaque relayed
game state is a natural number (the code never inspects it). -/
inductive Msg where
  | lobbyState (players : List PlayerView)
  | joined (playerId playerName : String) (players : List PlayerView)
  | errorMsg (message : String)
  | matchFound (gameId oppId oppName : String)
  | connectedMsg (youId youName : String) (opponent : Option (String × String))
  | start
  | opponentReturned (playerId : String)
  | opponentState (playerId : String) (state : Nat)
  | opponentGameOver (playerId : String) (state : Nat)
  | opponentLeft (playerId : String)
  | resumeState (state : Nat)
deriving DecidableEq, Repr

/-- Observable I/O events: an (attempted) payload write to one socket, an
invocation of LobbyManager.broadcast_state, or an invocation of
GameSession.broadcast of a given payload in a given session. -/
inductive Ev where
  | send (sock : Nat) (m : Msg)
  | broadcastCall
  | gameBroadcast (sessionId : String) (m : Msg)
deriving DecidableEq, Repr

/-- safe_send (services/utils.py): no-op on a missing socket, one attempted
write otherwise (peer-gone and mid-close errors are swallowed). -/
def safeSendEv : Option Nat → Msg → List Ev
  | none, _ => []
  | some w, m => [Ev.send w m]

/-! ### Lobby registry (services/lobby_manager.py) -/

/-- LobbyPlayer record. -/
structure LobbyPlayer where
  id : String
  name : String
  websocket : Option Nat
  connected : Bool
deriving DecidableEq, Repr

/-- LobbyManager mutable state: players dict, ready queue, reconnect-timer
table (ids with an armed disconnect task). -/
structure LobbyState where
  players : List (String × LobbyPlayer)
  queue : List String
  disconnectTasks : List String
deriving DecidableEq, Repr

/-- The empty lobby (LobbyManager.__init__). -/
def LobbyState.init : LobbyState := ⟨[], [], []⟩

/-- Python s[:n]: the first n code points. -/
def strTake (s : String) (n : Nat) : String :=
  String.mk (s.data.take n)

/-- Python s.strip(): drop whitespace from both ends. -/
def strTrim (s : String) : String :=
  String.mk (((s.data.dropWhile Char.isWhitespace).reverse.dropWhile
    Char.isWhitespace).reverse)

/-- name.strip()[:MAX_NAME_LENGTH] if name else "" -/
def sanitizeName (name : String) : String :=
  if name = "" then "" else strTake (strTrim name) MAX_NAME_LENGTH

/-- Python truthiness of the optional player_id argument. -/
def pidTruthy : Option String → Bool
  | none => false
  | some p => p ≠ ""

/-- LobbyManager.register_player. freshId stands for str(uuid4()); the caller
guarantees its freshness. Returns the new state and the returned record. -/
def register_player (ws : Nat) (name : String) (player_id : Option String)
    (freshId : String) (s : LobbyState) : LobbyState × LobbyPlayer :=
  let sanitized := sanitizeName name
  let existing : Option (String × LobbyPlayer) :=
    match player_id with
    | some pid => if pid ≠ "" then (alookup pid s.players).map (fun p => (pid, p)) else none
    | none => none
  match existing with
  | some (pid, p) =>
      let p1 : LobbyPlayer :=
        { p with
          name := if sanitized ≠ "" then sanitized else p.name
          websocket := some ws
          connected := true }
      ({ s with
          players := aupdate pid p1 s.players
          disconnectTasks := removeFirst p.id s.disconnectTasks }, p1)
  | none =>
      let generatedId :=
        match player_id with
        | some pid => if pid ≠ "" then pid else freshId
        | none => freshId
      let p : LobbyPlayer :=
        { id := generatedId
          name := if sanitized ≠ "" then sanitized else strTake generatedId 6
          websocket := some ws
          connected := true }
      ({ s with
          players := aupdate generatedId p s.players
          disconnectTasks := removeFirst generatedId s.disconnectTasks }, p)

/-- LobbyManager.remove_player. -/
def remove_player (player_id : String) (s : LobbyState) : LobbyState :=
  { players := aerase player_id s.players
    queue := removeFirst player_id s.queue
    disconnectTasks := removeFirst player_id s.disconnectTasks }

/-- LobbyManager.set_ready. -/
def set_ready (player_id : String) (ready : Bool) (s : LobbyState) : LobbyState :=
  if ready then
    if player_id ∈ s.queue then s else { s with queue := s.queue ++ [player_id] }
  else
    if player_id ∈ s.queue then { s with queue := removeFirst player_id s.queue } else s

/-- LobbyManager.schedule_disconnect: mark disconnected, pull from the queue,
arm the reconnect timer unless one is already armed. -/
def schedule_disconnect (player_id : String) (s : LobbyState) : LobbyState :=
  match alookup player_id s.players with
  | none => s
  | some p =>
      let p1 := { p with connected := false, websocket := none }
      let s1 :=
        { s with
            players := aupdate player_id p1 s.players
            queue := removeFirst player_id s.queue }
      if player_id ∈ s.disconnectTasks then s1
      else { s1 with disconnectTasks := s1.disconnectTasks ++ [player_id] }

/-- State effect of the grace-expiry body of LobbyManager._delayed_remove:
remove the player if still present and still disconnected; the finally block
drops the timer-table entry. (The body then calls broadcast_state.) -/
def delayed_remove_fire (player_id : String) (s : LobbyState) : LobbyState :=
  let s1 :=
    match alookup player_id s.players with
    | some p => if p.connected then s else { s with players := aerase player_id s.players }
    | none => s
  { s1 with disconnectTasks := removeFirst player_id s1.disconnectTasks }

/-- LobbyManager.snapshot: the lobby_state payload and the live sockets. -/
def snapshot (s : LobbyState) : List PlayerView × List (String × Nat) :=
  (s.players.map (fun q =>
      { id := q.1
        name := q.2.name
        isReady := decide (q.1 ∈ s.queue)
        isConnected := q.2.connected }),
    (s.players.filter (fun q => q.2.websocket.isSome)).map
      (fun q => (q.1, q.2.websocket.getD 0)))

/-- The spec invariant: every id in readyQueue exists in players. -/
def queueInv (s : LobbyState) : Prop :=
  ∀ pid ∈ s.queue, (alookup pid s.players).isSome = true

instance (s : LobbyState) : Decidable (queueInv s) :=
  List.decidableBAll _ s.queue

theorem alookup_aupdate_isSome (k k1 : String) (v : α) (l : List (String × α))
    (h : (alookup k1 l).isSome = true) :
    (alookup k1 (aupdate k v l)).isSome = true := by
  by_cases hk : k1 = k
  · subst hk
    simp [alookup_aupdate_self]
  · rw [alookup_aupdate_ne k k1 v l hk]
    exact h

/-- Claim C2, counterexample: starting from the empty lobby (where the
invariant holds), set_ready with an id absent from players appends that id to
readyQueue, so the invariant is broken after the operation — refuting the
claim that every listed operation preserves it. -/
theorem C2_queue_invariant_counterexample :
    queueInv LobbyState.init ∧ ¬ queueInv (set_ready "a" true LobbyState.init) := by
  decide

/-- Claim C2 (amended): registerPlayer, setReady(id, false) and
scheduleDisconnect always preserve the queue-membership invariant;
removePlayer preserves it whenever readyQueue is duplicate-free;
setReady(id, true) preserves it whenever id is in players; and the
grace-expiry removal preserves it whenever the expiring id is not in
readyQueue. setReady(id, true) for an id absent from players does insert
that id into readyQueue (matchmaking later filters such ids out). -/
theorem C2_queue_invariant_amended :
    (∀ ws name pid fid s, queueInv s →
        queueInv (register_player ws name pid fid s).1) ∧
    (∀ pid s, s.queue.Nodup → queueInv s → queueInv (remove_player pid s)) ∧
    (∀ pid s, queueInv s → queueInv (set_ready pid false s)) ∧
    (∀ pid s, (alookup pid s.players).isSome = true → queueInv s →
        queueInv (set_ready pid true s)) ∧
    (∀ pid s, queueInv s → queueInv (schedule_disconnect pid s)) ∧
    (∀ pid s, pid ∉ s.queue → queueInv s → queueInv (delayed_remove_fire pid s)) := by
  refine ⟨?_, ?_, ?_, ?_, ?_, ?_⟩
  · intro ws name pid fid s hs q hq
    unfold register_player at hq ⊢
    cases hx : (match pid with
      | some p => if p ≠ "" then (alookup p s.players).map (fun r => (p, r)) else none
      | none => none) with
    | some pr =>
        simp only [hx] at hq ⊢
        exact alookup_aupdate_isSome _ _ _ _ (hs q hq)
    | none =>
        simp only [hx] at hq ⊢
        exact alookup_aupdate_isSome _ _ _ _ (hs q hq)
  · intro pid s hnd hs q hq
    unfold remove_player at hq ⊢
    simp only at hq ⊢
    have hq0 : q ∈ s.queue := mem_removeFirst _ _ _ hq
    have hne : q ≠ pid := by
      intro h
      subst h
      exact not_mem_removeFirst_of_nodup q s.queue hnd hq
    rw [alookup_aerase_ne pid q s.players hne]
    exact hs q hq0
  · intro pid s hs q hq
    unfold set_ready at hq ⊢
    simp only [Bool.false_eq_true, if_false] at hq ⊢
    by_cases hmem : pid ∈ s.queue
    · simp only [hmem, if_true] at hq ⊢
      exact hs q (mem_removeFirst _ _ _ hq)
    · simp only [hmem, if_false] at hq ⊢
      exact hs q hq
  · intro pid s hpid hs q hq
    unfold set_ready at hq ⊢
    simp only [if_true] at hq ⊢
    by_cases hmem : pid ∈ s.queue
    · simp only [hmem, if_true] at hq ⊢
      exact hs q hq
    · simp only [hmem, if_false] at hq ⊢
      rcases List.mem_append.1 hq with h | h
      · exact hs q h
      · simp only [List.mem_singleton] at h
        subst h
        exact hpid
  · intro pid s hs q hq
    unfold schedule_disconnect at hq ⊢
    cases hx : alookup pid s.players with
    | none =>
        simp only [hx] at hq ⊢
        exact hs q hq
    | some p =>
        simp only [hx] at hq ⊢
        by_cases harm : pid ∈ s.disconnectTasks
        · simp only [harm, if_true] at hq ⊢
          exact alookup_aupdate_isSome _ _ _ _ (hs q (mem_removeFirst _ _ _ hq))
        · simp only [harm, if_false] at hq ⊢
          exact alookup_aupdate_isSome _ _ _ _ (hs q (mem_removeFirst _ _ _ hq))
  · intro pid s hpid hs q hq
    unfold delayed_remove_fire at hq ⊢
    cases hx : alookup pid s.players with
    | none =>
        simp only [hx] at hq ⊢
        exact hs q hq
    | some p =>
        by_cases hc : p.connected = true
        · simp only [hx, hc, if_true] at hq ⊢
          exact hs q hq
        · simp only [hx, hc, Bool.false_eq_true, if_false] at hq ⊢
          have hne : q ≠ pid := fun h => hpid (h ▸ hq)
          rw [alookup_aerase_ne pid q s.players hne]
          exact hs q hq

/-- Claim C2, witness: the amended preservation statements applied at concrete
lobby states. -/
theorem C2_queue_invariant_witness :
    queueInv (register_player 1 "Ada" none "fid001" LobbyState.init).1 ∧
    queueInv (remove_player "a"
      ⟨[("a", ⟨"a", "Ada", some 1, true⟩)], ["a"], []⟩) ∧
    queueInv (set_ready "a" false
      ⟨[("a", ⟨"a", "Ada", some 1, true⟩)], ["a"], []⟩) ∧
    queueInv (set_ready "a" true
      ⟨[("a", ⟨"a", "Ada", some 1, true⟩)], [], []⟩) ∧
    queueInv (schedule_disconnect "a"
      ⟨[("a", ⟨"a", "Ada", some 1, true⟩)], ["a"], []⟩) ∧
    queueInv (delayed_remove_fire "a"
      ⟨[("a", ⟨"a", "Ada", none, false⟩)], [], ["a"]⟩) :=
  ⟨C2_queue_invariant_amended.1 1 "Ada" none "fid001" LobbyState.init (by decide),
   C2_queue_invariant_amended.2.1 "a" _ (by decide) (by decide),
   C2_queue_invariant_amended.2.2.1 "a" _ (by decide),
   C2_queue_invariant_amended.2.2.2.1 "a" _ (by decide) (by decide),
   C2_queue_invariant_amended.2.2.2.2.1 "a" _ (by decide),
   C2_queue_invariant_amended.2.2.2.2.2 "a" _ (by decide) (by decide)⟩

/-! ### Session registry (services/game_manager.py) -/

/-- GameSession record: members (id to display name, frozen at creation),
per-session connections, last-state memo, and the two lifecycle flags. -/
structure GameSession where
  id : String
  players : List (String × String)
  connections : List (String × Nat)
  lastStates : List (String × Nat)
  finished : Bool
  started : Bool
deriving DecidableEq, Repr

/-- GameSession.opponent_for: the first member whose id differs. -/
def opponent_for (sess : GameSession) (player_id : String) : Option (String × String) :=
  sess.players.find? (fun q => q.1 ≠ player_id)

/-- GameSession.broadcast: one call event, then a safe_send to every
connection other than the excluded id (exclude = none sends to all). -/
def session_broadcast (sess : GameSession) (m : Msg) (exclude : Option String) : List Ev :=
  Ev.gameBroadcast sess.id m ::
    (sess.connections.filter (fun c => some c.1 ≠ exclude)).map (fun c => Ev.send c.2 m)

/-- GameSession.send_to_opponent: safe_send to the opponent's live connection,
if any. -/
def send_to_opponent (sess : GameSession) (sender_id : String) (m : Msg) : List Ev :=
  match opponent_for sess sender_id with
  | none => []
  | some (oppId, _) =>
      match alookup oppId sess.connections with
      | none => []
      | some w => [Ev.send w m]

/-- GameManager mutable state: sessions dict and cleanup-timer table. -/
structure GameMgr where
  sessions : List (String × GameSession)
  cleanupTasks : List String
deriving DecidableEq, Repr

/-- The empty registry (GameManager.__init__). -/
def GameMgr.init : GameMgr := ⟨[], []⟩

/-- GameManager.create_session. sid stands for str(uuid4()); the caller
guarantees its freshness. -/
def create_session (p1 p2 : LobbyPlayer) (sid : String) (gm : GameMgr) :
    GameMgr × GameSession :=
  let sess : GameSession :=
    { id := sid
      players := aupdate p2.id p2.name (aupdate p1.id p1.name [])
      connections := []
      lastStates := []
      finished := false
      started := false }
  ({ gm with sessions := aupdate sid sess gm.sessions }, sess)

/-- GameManager.notify_match_found: each member receives the session id and
the OTHER member's id and name over their lobby socket. -/
def notify_match_found (sid : String) (p1 p2 : LobbyPlayer) : List Ev :=
  safeSendEv p1.websocket (Msg.matchFound sid p2.id p2.name) ++
    safeSendEv p2.websocket (Msg.matchFound sid p1.id p1.name)

/-- GameManager.remove_session: drop the session, cancel its cleanup timer,
clear its connections and last states. -/
def remove_session (sid : String) (gm : GameMgr) : GameMgr :=
  { sessions := aerase sid gm.sessions
    cleanupTasks := removeFirst sid gm.cleanupTasks }

/-- GameManager.forward_state: silently drop when the session is missing;
otherwise record lastStates[sender] and relay opponent_state. -/
def forward_state (sid sender_id : String) (state : Nat) (gm : GameMgr) :
    GameMgr × List Ev :=
  match alookup sid gm.sessions with
  | none => (gm, [])
  | some sess =>
      let sess1 := { sess with lastStates := aupdate sender_id state sess.lastStates }
      ({ gm with sessions := aupdate sid sess1 gm.sessions },
        send_to_opponent sess1 sender_id (Msg.opponentState sender_id state))

/-- GameManager.forward_game_over: as forward_state, but also set finished
and relay opponent_game_over. -/
def forward_game_over (sid sender_id : String) (state : Nat) (gm : GameMgr) :
    GameMgr × List Ev :=
  match alookup sid gm.sessions with
  | none => (gm, [])
  | some sess =>
      let sess1 :=
        { sess with
            lastStates := aupdate sender_id state sess.lastStates
            finished := true }
      ({ gm with sessions := aupdate sid sess1 gm.sessions },
        send_to_opponent sess1 sender_id (Msg.opponentGameOver sender_id state))

/-- GameManager.schedule_cleanup: idempotent; arm the timer unless armed. -/
def schedule_cleanup (sid : String) (gm : GameMgr) : GameMgr :=
  if sid ∈ gm.cleanupTasks then gm
  else { gm with cleanupTasks := gm.cleanupTasks ++ [sid] }

/-- GameManager.cancel_cleanup: disarm if armed. -/
def cancel_cleanup (sid : String) (gm : GameMgr) : GameMgr :=
  { gm with cleanupTasks := removeFirst sid gm.cleanupTasks }

/-- GameManager.handle_disconnect: drop the connection, broadcast
opponent_left to whoever remains, arm cleanup when no connection remains. -/
def handle_disconnect (sid player_id : String) (gm : GameMgr) : GameMgr × List Ev :=
  match alookup sid gm.sessions with
  | none => (gm, [])
  | some sess =>
      let sess1 := { sess with connections := aerase player_id sess.connections }
      let evs := session_broadcast sess1 (Msg.opponentLeft player_id) (some player_id)
      let gm1 := { gm with sessions := aupdate sid sess1 gm.sessions }
      if sess1.connections.length = 0 then (schedule_cleanup sid gm1, evs)
      else (gm1, evs)

/-- State effect of the grace-expiry body of GameManager._delayed_cleanup:
destroy the session iff it still exists and has zero connections or is
finished; the finally block drops the timer-table entry. -/
def delayed_cleanup_fire (sid : String) (gm : GameMgr) : GameMgr :=
  let gm1 :=
    match alookup sid gm.sessions with
    | none => gm
    | some sess =>
        if sess.connections.length = 0 ∨ sess.finished then remove_session sid gm
        else gm
  { gm1 with cleanupTasks := removeFirst sid gm1.cleanupTasks }

/-! ### Game endpoint handler (sockets/game.py) -/

/-- Resume step 1 of the game-endpoint connect: replay the connecting
player's own last state to them, if any. -/
def resume_own_events (sess : GameSession) (player_id : String) (sock : Nat) : List Ev :=
  match alookup player_id sess.lastStates with
  | some st => [Ev.send sock (Msg.resumeState st)]
  | none => []

/-- Resume step 2 of the game-endpoint connect: replay the opponent's last
state to the connecting player, if any. -/
def resume_opp_events (sess : GameSession) (opponent : Option (String × String))
    (sock : Nat) : List Ev :=
  match opponent with
  | none => []
  | some q =>
      match alookup q.1 sess.lastStates with
      | some st => [Ev.send sock (Msg.opponentState q.1 st)]
      | none => []

/-- The session-local effect of a successful game-endpoint connect
(sockets/game.py after the accept): attach the socket, send the connected
payload, emit the start / opponent_returned signalling, then the resume
payloads. -/
def session_connect (sess : GameSession) (player_id : String) (sock : Nat) :
    GameSession × List Ev :=
  let sess1 := { sess with connections := aupdate player_id sock sess.connections }
  let opponent := opponent_for sess1 player_id
  let evConnected : List Ev :=
    [Ev.send sock (Msg.connectedMsg player_id
      ((alookup player_id sess1.players).getD "") opponent)]
  let full := sess1.connections.length = sess1.players.length
  let sess2 :=
    if full ∧ sess1.started = false then { sess1 with started := true } else sess1
  let evStart : List Ev :=
    if full then
      if sess1.started = false then session_broadcast sess2 Msg.start none
      else session_broadcast sess1 (Msg.opponentReturned player_id) (some player_id) ++
        [Ev.send sock Msg.start]
    else []
  (sess2, evConnected ++ evStart ++ resume_own_events sess2 player_id sock ++
    resume_opp_events sess2 opponent sock)

/-- The game endpoint connection attempt: the three pre-accept policy checks
(close 1008, no payload, registry untouched), then the accept path —
add_connection, cancel_cleanup and the connect signalling. Returns the new
registry, the emitted events, and whether the socket was accepted. -/
def game_endpoint_connect (player_id : Option String) (game_id : String) (sock : Nat)
    (gm : GameMgr) : GameMgr × List Ev × Bool :=
  if pidTruthy player_id = false then (gm, [], false)
  else
    let pid := player_id.getD ""
    match alookup game_id gm.sessions with
    | none => (gm, [], false)
    | some sess =>
        if (alookup pid sess.players).isSome = false then (gm, [], false)
        else
          ({ sessions := aupdate game_id (session_connect sess pid sock).1 gm.sessions
             cleanupTasks := removeFirst game_id gm.cleanupTasks },
            (session_connect sess pid sock).2, true)

theorem session_connect_connections (sess : GameSession) (pid : String) (sock : Nat) :
    (session_connect sess pid sock).1.connections = aupdate pid sock sess.connections := by
  unfold session_connect
  dsimp only
  by_cases hf : (aupdate pid sock sess.connections).length = sess.players.length ∧
      sess.started = false
  · simp [hf]
  · simp [hf]

theorem session_connect_id (sess : GameSession) (pid : String) (sock : Nat) :
    (session_connect sess pid sock).1.id = sess.id := by
  unfold session_connect
  dsimp only
  by_cases hf : (aupdate pid sock sess.connections).length = sess.players.length ∧
      sess.started = false
  · simp [hf]
  · simp [hf]

/-- Claim C4: a game-endpoint connection attempt with a missing playerId, an
unknown session, or a playerId outside the session members is rejected
(close 1008), emits nothing and leaves the registry untouched; otherwise it
is accepted and the socket is attached as connections[playerId]. -/
theorem C4_game_endpoint_policy (player_id : Option String) (game_id : String)
    (sock : Nat) (gm : GameMgr) :
    ((game_endpoint_connect player_id game_id sock gm).2.2 = false ↔
      (pidTruthy player_id = false ∨ alookup game_id gm.sessions = none ∨
        ∃ sess, alookup game_id gm.sessions = some sess ∧
          alookup (player_id.getD "") sess.players = none)) ∧
    ((game_endpoint_connect player_id game_id sock gm).2.2 = false →
      (game_endpoint_connect player_id game_id sock gm).1 = gm ∧
        (game_endpoint_connect player_id game_id sock gm).2.1 = []) ∧
    ((game_endpoint_connect player_id game_id sock gm).2.2 = true →
      ∃ sess sess2, alookup game_id gm.sessions = some sess ∧
        alookup game_id (game_endpoint_connect player_id game_id sock gm).1.sessions =
          some sess2 ∧
        alookup (player_id.getD "") sess2.connections = some sock) := by
  by_cases hp : pidTruthy player_id = false
  · have hr : game_endpoint_connect player_id game_id sock gm = (gm, [], false) := by
      unfold game_endpoint_connect
      simp [hp]
    rw [hr]
    exact ⟨by simp [hp], fun _ => ⟨rfl, rfl⟩, fun h => by cases h⟩
  · have hp1 : pidTruthy player_id = true := by
      cases hpt : pidTruthy player_id
      · exact absurd hpt hp
      · rfl
    cases hx : alookup game_id gm.sessions with
    | none =>
        have hr : game_endpoint_connect player_id game_id sock gm = (gm, [], false) := by
          unfold game_endpoint_connect
          simp [hp1, hx]
        rw [hr]
        exact ⟨by simp [hx], fun _ => ⟨rfl, rfl⟩, fun h => by cases h⟩
    | some sess =>
        cases hm : alookup (player_id.getD "") sess.players with
        | none =>
            have hr : game_endpoint_connect player_id game_id sock gm = (gm, [], false) := by
              unfold game_endpoint_connect
              simp [hp1, hx, hm]
            rw [hr]
            refine ⟨?_, fun _ => ⟨rfl, rfl⟩, fun h => by cases h⟩
            simp only [true_iff]
            exact Or.inr (Or.inr ⟨sess, rfl, hm⟩)
        | some pname =>
            have hr : game_endpoint_connect player_id game_id sock gm =
                ({ sessions := aupdate game_id
                      (session_connect sess (player_id.getD "") sock).1 gm.sessions
                   cleanupTasks := removeFirst game_id gm.cleanupTasks },
                  (session_connect sess (player_id.getD "") sock).2, true) := by
              unfold game_endpoint_connect
              simp [hp1, hx, hm]
            rw [hr]
            refine ⟨?_, fun h => by simp at h, fun _ => ?_⟩
            · constructor
              · intro h
                simp at h
              · rintro (h | h | ⟨sess1, hs1, hs2⟩)
                · rw [hp1] at h
                  cases h
                · cases h
                · cases hs1
                  rw [hs2] at hm
                  cases hm
            · refine ⟨sess, (session_connect sess (player_id.getD "") sock).1, rfl, ?_, ?_⟩
              · exact alookup_aupdate_self _ _ _
              · rw [session_connect_connections]
                exact alookup_aupdate_self _ _ _

/-- Claim C4, witness: the characterization applied at concrete inputs — a
missing playerId is rejected with the registry untouched, and a member
connecting to an existing session is accepted and attached. -/
theorem C4_game_endpoint_policy_witness :
    ((game_endpoint_connect none "g1" 7 GameMgr.init).1 = GameMgr.init ∧
      (game_endpoint_connect none "g1" 7 GameMgr.init).2.1 = []) ∧
    (∃ sess sess2,
      alookup "g1" (GameMgr.mk [("g1", ⟨"g1", [("a", "Ada"), ("b", "Bob")], [], [], false, false⟩)]
        []).sessions = some sess ∧
      alookup "g1" (game_endpoint_connect (some "a") "g1" 7
        (GameMgr.mk [("g1", ⟨"g1", [("a", "Ada"), ("b", "Bob")], [], [], false, false⟩)]
          [])).1.sessions = some sess2 ∧
      alookup "a" sess2.connections = some 7) :=
  ⟨(C4_game_endpoint_policy none "g1" 7 GameMgr.init).2.1 (by decide),
   (C4_game_endpoint_policy (some "a") "g1" 7
      (GameMgr.mk [("g1", ⟨"g1", [("a", "Ada"), ("b", "Bob")], [], [], false, false⟩)]
        [])).2.2 (by decide)⟩

theorem alookup_mem (k : String) (v : α) (l : List (String × α))
    (h : alookup k l = some v) : (k, v) ∈ l := by
  induction l with
  | nil => simp [alookup] at h
  | cons q rest ih =>
      by_cases hq : q.1 = k
      · simp only [alookup, hq, if_true, Option.some_inj] at h
        subst h
        subst hq
        exact List.mem_cons_self _ _
      · simp only [alookup, hq, if_false] at h
        exact List.mem_cons_of_mem _ (ih h)

theorem opponent_for_ne (sess : GameSession) (pid oppId oppName : String)
    (h : opponent_for sess pid = some (oppId, oppName)) : oppId ≠ pid := by
  have := List.find?_some h
  simpa using this

/-- Claim C5: forward_state on a missing session is a strict no-op; on an
existing session it records lastStates[sender] = state, sends opponent_state
to the other member's live connection if one exists, and sends nothing to the
sender's own connection. -/
theorem C5_forward_state_relay (sid sender : String) (st : Nat) (gm : GameMgr) :
    (alookup sid gm.sessions = none → forward_state sid sender st gm = (gm, [])) ∧
    (∀ sess, alookup sid gm.sessions = some sess →
      ∃ sess1, alookup sid (forward_state sid sender st gm).1.sessions = some sess1 ∧
        alookup sender sess1.lastStates = some st ∧
        (forward_state sid sender st gm).2 =
          (match opponent_for sess sender with
            | none => []
            | some (oppId, _) =>
                match alookup oppId sess.connections with
                | none => []
                | some w => [Ev.send w (Msg.opponentState sender st)]) ∧
        (∀ sw, alookup sender sess.connections = some sw →
          (∀ q ∈ sess.connections, q.1 ≠ sender → q.2 ≠ sw) →
          Ev.send sw (Msg.opponentState sender st) ∉ (forward_state sid sender st gm).2)) := by
  constructor
  · intro h
    unfold forward_state
    rw [h]
  · intro sess hx
    have hr : forward_state sid sender st gm =
        ({ gm with sessions := (aupdate sid
            ({ sess with lastStates := aupdate sender st sess.lastStates }) gm.sessions) },
          send_to_opponent ({ sess with lastStates := aupdate sender st sess.lastStates })
            sender (Msg.opponentState sender st)) := by
      unfold forward_state
      rw [hx]
    rw [hr]
    refine ⟨{ sess with lastStates := aupdate sender st sess.lastStates },
      alookup_aupdate_self _ _ _, alookup_aupdate_self _ _ _, ?_, ?_⟩
    · show send_to_opponent _ sender _ = _
      unfold send_to_opponent opponent_for
      rfl
    · intro sw hsw hinj
      show Ev.send sw (Msg.opponentState sender st) ∉
        send_to_opponent { sess with lastStates := aupdate sender st sess.lastStates }
          sender (Msg.opponentState sender st)
      unfold send_to_opponent
      cases ho : opponent_for { sess with lastStates := aupdate sender st sess.lastStates }
          sender with
      | none => simp
      | some opp =>
          obtain ⟨oppId, oppName⟩ := opp
          have hne : oppId ≠ sender := opponent_for_ne _ _ _ _ ho
          simp only
          cases hc : alookup oppId sess.connections with
          | none => simp
          | some w =>
              have hwne : w ≠ sw := hinj (oppId, w) (alookup_mem _ _ _ hc) hne
              simp only [List.mem_singleton]
              intro hcontra
              exact hwne (by injection hcontra with h1 h2; exact h1.symm) |>.elim

/-- Claim C5, witness: at a concrete registry — missing session is a no-op;
with members Ada and Bob where Bob holds connection 5 and Ada connection 4,
Ada's state update is recorded and relayed on socket 5 only, never to Ada's
own socket 4. -/
theorem C5_forward_state_relay_witness :
    (forward_state "nosuch" "a" 3 GameMgr.init = (GameMgr.init, [])) ∧
    (∃ sess1, alookup "g1" (forward_state "g1" "a" 3
        (GameMgr.mk [("g1", ⟨"g1", [("a", "Ada"), ("b", "Bob")],
          [("a", 4), ("b", 5)], [], false, true⟩)] [])).1.sessions = some sess1 ∧
      alookup "a" sess1.lastStates = some 3 ∧
      (forward_state "g1" "a" 3
        (GameMgr.mk [("g1", ⟨"g1", [("a", "Ada"), ("b", "Bob")],
          [("a", 4), ("b", 5)], [], false, true⟩)] [])).2 =
        (match opponent_for (⟨"g1", [("a", "Ada"), ("b", "Bob")],
            [("a", 4), ("b", 5)], [], false, true⟩ : GameSession) "a" with
          | none => []
          | some (oppId, _) =>
              match alookup oppId [("a", 4), ("b", 5)] with
              | none => []
              | some w => [Ev.send w (Msg.opponentState "a" 3)]) ∧
      Ev.send 4 (Msg.opponentState "a" 3) ∉ (forward_state "g1" "a" 3
        (GameMgr.mk [("g1", ⟨"g1", [("a", "Ada"), ("b", "Bob")],
          [("a", 4), ("b", 5)], [], false, true⟩)] [])).2) := by
  constructor
  · exact (C5_forward_state_relay "nosuch" "a" 3 GameMgr.init).1 (by decide)
  · obtain ⟨sess1, h1, h2, h3, h4⟩ :=
      (C5_forward_state_relay "g1" "a" 3
        (GameMgr.mk [("g1", ⟨"g1", [("a", "Ada"), ("b", "Bob")],
          [("a", 4), ("b", 5)], [], false, true⟩)] [])).2
        (⟨"g1", [("a", "Ada"), ("b", "Bob")], [("a", 4), ("b", 5)], [], false, true⟩)
        (by decide)
    exact ⟨sess1, h1, h2, h3, h4 4 (by decide) (by decide)⟩

/-- Claim C7: scheduleCleanup is idempotent and keeps the timer table
duplicate-free (at most one pending timer per session id); the firing body
destroys the session iff it still exists and has zero connections or is
finished, and otherwise leaves the session table alone; and a successful
game-endpoint connect cancels any pending cleanup timer for that session. -/
theorem C7_cleanup_timer (sid : String) (gm : GameMgr) :
    (schedule_cleanup sid (schedule_cleanup sid gm) = schedule_cleanup sid gm) ∧
    (gm.cleanupTasks.Nodup → (schedule_cleanup sid gm).cleanupTasks.Nodup) ∧
    (∀ sess, alookup sid gm.sessions = some sess →
      ((sess.connections.length = 0 ∨ sess.finished = true) →
        (delayed_cleanup_fire sid gm).sessions = aerase sid gm.sessions) ∧
      (¬(sess.connections.length = 0 ∨ sess.finished = true) →
        (delayed_cleanup_fire sid gm).sessions = gm.sessions)) ∧
    (alookup sid gm.sessions = none →
      (delayed_cleanup_fire sid gm).sessions = gm.sessions) ∧
    (∀ player_id game_id sock,
      (game_endpoint_connect player_id game_id sock gm).2.2 = true →
      gm.cleanupTasks.Nodup →
      game_id ∉ (game_endpoint_connect player_id game_id sock gm).1.cleanupTasks) := by
  refine ⟨?_, ?_, ?_, ?_, ?_⟩
  · unfold schedule_cleanup
    by_cases h : sid ∈ gm.cleanupTasks
    · simp [h]
    · simp [h]
  · intro hnd
    unfold schedule_cleanup
    by_cases h : sid ∈ gm.cleanupTasks
    · simpa [h] using hnd
    · simp only [h, if_false]
      simp [List.nodup_append, hnd, h]
  · intro sess hx
    constructor
    · intro hcond
      unfold delayed_cleanup_fire
      rw [hx]
      rcases hcond with hc | hc
      · simp [hc, remove_session]
      · simp [hc, remove_session]
    · intro hcond
      unfold delayed_cleanup_fire
      rw [hx]
      have h1 : ¬ sess.connections.length = 0 := fun h => hcond (Or.inl h)
      have h2 : ¬ sess.finished = true := fun h => hcond (Or.inr h)
      simp [h1, h2]
  · intro hx
    unfold delayed_cleanup_fire
    rw [hx]
  · intro player_id game_id sock hacc hnd
    unfold game_endpoint_connect at hacc ⊢
    by_cases hp : pidTruthy player_id = false
    · simp [hp] at hacc
    · have hp1 : pidTruthy player_id = true := by
        cases hpt : pidTruthy player_id
        · exact absurd hpt hp
        · rfl
      simp only [hp1, Bool.true_eq_false, if_false] at hacc ⊢
      cases hx : alookup game_id gm.sessions with
      | none =>
          rw [hx] at hacc
          simp at hacc
      | some sess =>
          rw [hx] at hacc
          dsimp only at hacc ⊢
          by_cases hm : (alookup (player_id.getD "") sess.players).isSome = false
          · simp [hm] at hacc
          · have hm1 : (alookup (player_id.getD "") sess.players).isSome = true := by
              cases hms : (alookup (player_id.getD "") sess.players).isSome
              · exact absurd hms hm
              · rfl
            simp only [hm1, Bool.true_eq_false, if_false]
            exact not_mem_removeFirst_of_nodup _ _ hnd

/-- Claim C7, witness: scheduling twice on the empty registry equals
scheduling once and keeps the table duplicate-free; firing on a session with
zero connections destroys it while firing on a connected unfinished session
leaves the table untouched; a member's successful connect removes the armed
timer. -/
theorem C7_cleanup_timer_witness :
    (schedule_cleanup "g1" (schedule_cleanup "g1" GameMgr.init) =
      schedule_cleanup "g1" GameMgr.init) ∧
    (schedule_cleanup "g1" GameMgr.init).cleanupTasks.Nodup ∧
    ((delayed_cleanup_fire "g1"
        (GameMgr.mk [("g1", ⟨"g1", [("a", "Ada"), ("b", "Bob")], [], [], false, true⟩)]
          ["g1"])).sessions =
      aerase "g1" [("g1", (⟨"g1", [("a", "Ada"), ("b", "Bob")], [], [], false, true⟩ :
        GameSession))]) ∧
    ((delayed_cleanup_fire "g1"
        (GameMgr.mk [("g1", ⟨"g1", [("a", "Ada"), ("b", "Bob")], [("a", 4)], [], false, true⟩)]
          ["g1"])).sessions =
      [("g1", (⟨"g1", [("a", "Ada"), ("b", "Bob")], [("a", 4)], [], false, true⟩ :
        GameSession))]) ∧
    "g1" ∉ (game_endpoint_connect (some "a") "g1" 7
      (GameMgr.mk [("g1", ⟨"g1", [("a", "Ada"), ("b", "Bob")], [], [], false, false⟩)]
        ["g1"])).1.cleanupTasks :=
  ⟨(C7_cleanup_timer "g1" GameMgr.init).1,
   (C7_cleanup_timer "g1" GameMgr.init).2.1 (by decide),
   ((C7_cleanup_timer "g1"
      (GameMgr.mk [("g1", ⟨"g1", [("a", "Ada"), ("b", "Bob")], [], [], false, true⟩)]
        ["g1"])).2.2.1
      (⟨"g1", [("a", "Ada"), ("b", "Bob")], [], [], false, true⟩ : GameSession)
      (by decide)).1 (by decide),
   ((C7_cleanup_timer "g1"
      (GameMgr.mk [("g1", ⟨"g1", [("a", "Ada"), ("b", "Bob")], [("a", 4)], [], false, true⟩)]
        ["g1"])).2.2.1
      (⟨"g1", [("a", "Ada"), ("b", "Bob")], [("a", 4)], [], false, true⟩ : GameSession)
      (by decide)).2 (by decide),
   (C7_cleanup_timer "g1"
      (GameMgr.mk [("g1", ⟨"g1", [("a", "Ada"), ("b", "Bob")], [], [], false, false⟩)]
        ["g1"])).2.2.2.2 (some "a") "g1" 7 (by decide) (by decide)⟩

/-! ### Per-session operation traces (sockets/game.py loop plus the
session-local bodies of GameManager.forward_state / forward_game_over /
handle_disconnect) -/

/-- Session-local body of forward_state once the session was found. -/
def session_forward_state (sess : GameSession) (sender_id : String) (state : Nat) :
    GameSession × List Ev :=
  let sess1 := { sess with lastStates := aupdate sender_id state sess.lastStates }
  (sess1, send_to_opponent sess1 sender_id (Msg.opponentState sender_id state))

/-- Session-local body of forward_game_over once the session was found. -/
def session_forward_game_over (sess : GameSession) (sender_id : String) (state : Nat) :
    GameSession × List Ev :=
  let sess1 :=
    { sess with
        lastStates := aupdate sender_id state sess.lastStates
        finished := true }
  (sess1, send_to_opponent sess1 sender_id (Msg.opponentGameOver sender_id state))

/-- Session-local body of handle_disconnect once the session was found. -/
def session_disconnect (sess : GameSession) (player_id : String) :
    GameSession × List Ev :=
  let sess1 := { sess with connections := aerase player_id sess.connections }
  (sess1, session_broadcast sess1 (Msg.opponentLeft player_id) (some player_id))

/-- One operation hitting a session over its lifetime. -/
inductive GOp where
  | connect (player_id : String) (sock : Nat)
  | stateUpdate (player_id : String) (state : Nat)
  | gameOver (player_id : String) (state : Nat)
  | disconnect (player_id : String)
deriving DecidableEq, Repr

/-- Dispatch one operation to its session-local body. -/
def session_step (sess : GameSession) : GOp → GameSession × List Ev
  | GOp.connect pid sock => session_connect sess pid sock
  | GOp.stateUpdate pid st => session_forward_state sess pid st
  | GOp.gameOver pid st => session_forward_game_over sess pid st
  | GOp.disconnect pid => session_disconnect sess pid

/-- Run a list of operations, concatenating the emitted events. -/
def session_run (sess : GameSession) : List GOp → GameSession × List Ev
  | [] => (sess, [])
  | op :: ops =>
      let r1 := session_step sess op
      let r2 := session_run r1.1 ops
      (r2.1, r1.2 ++ r2.2)

/-- Occurrences of the broadcast of a start payload to all of a session's
connections inside an event list. -/
def countStart (sid : String) (evs : List Ev) : Nat :=
  evs.countP (fun e => decide (e = Ev.gameBroadcast sid Msg.start))

theorem countStart_append (sid : String) (l1 l2 : List Ev) :
    countStart sid (l1 ++ l2) = countStart sid l1 + countStart sid l2 :=
  List.countP_append _ _ _

theorem countStart_map_send (sid : String) (m : Msg) (l : List (String × Nat)) :
    countStart sid (l.map (fun c => Ev.send c.2 m)) = 0 := by
  unfold countStart
  rw [List.countP_eq_zero]
  intro e he
  simp only [List.mem_map] at he
  obtain ⟨c, _, rfl⟩ := he
  simp

theorem countStart_session_broadcast (sid : String) (sess : GameSession) (m : Msg)
    (ex : Option String) :
    countStart sid (session_broadcast sess m ex) =
      if sess.id = sid ∧ m = Msg.start then 1 else 0 := by
  unfold session_broadcast
  show countStart sid (Ev.gameBroadcast sess.id m :: _) = _
  unfold countStart
  rw [List.countP_cons]
  have h0 : ((sess.connections.filter (fun c => some c.1 ≠ ex)).map
      (fun c => Ev.send c.2 m)).countP
        (fun e => decide (e = Ev.gameBroadcast sid Msg.start)) = 0 :=
    countStart_map_send sid m _
  rw [h0]
  by_cases h : sess.id = sid ∧ m = Msg.start
  · obtain ⟨h1, h2⟩ := h
    subst h1; subst h2
    simp
  · have : ¬ (Ev.gameBroadcast sess.id m = Ev.gameBroadcast sid Msg.start) := by
      intro hc
      injection hc with ha hb
      exact h ⟨ha, hb⟩
    simp [this, h]

theorem countStart_send_to_opponent (sid : String) (sess : GameSession)
    (sender : String) (m : Msg) :
    countStart sid (send_to_opponent sess sender m) = 0 := by
  unfold send_to_opponent
  cases opponent_for sess sender with
  | none => rfl
  | some opp =>
      obtain ⟨oid, oname⟩ := opp
      simp only
      cases alookup oid sess.connections with
      | none => rfl
      | some w => simp [countStart]

theorem session_step_id (sess : GameSession) (op : GOp) :
    (session_step sess op).1.id = sess.id := by
  cases op with
  | connect pid sock => exact session_connect_id sess pid sock
  | stateUpdate pid st => rfl
  | gameOver pid st => rfl
  | disconnect pid => rfl

theorem session_step_started_mono (sess : GameSession) (op : GOp)
    (h : sess.started = true) : (session_step sess op).1.started = true := by
  cases op with
  | connect pid sock =>
      show (session_connect sess pid sock).1.started = true
      unfold session_connect
      dsimp only
      by_cases hf : (aupdate pid sock sess.connections).length = sess.players.length ∧
          sess.started = false
      · rw [h] at hf
        simp at hf
      · simp [hf, h]
  | stateUpdate pid st => exact h
  | gameOver pid st => exact h
  | disconnect pid => exact h

theorem session_step_finished_mono (sess : GameSession) (op : GOp)
    (h : sess.finished = true) : (session_step sess op).1.finished = true := by
  cases op with
  | connect pid sock =>
      show (session_connect sess pid sock).1.finished = true
      unfold session_connect
      dsimp only
      by_cases hf : (aupdate pid sock sess.connections).length = sess.players.length ∧
          sess.started = false
      · simp [hf, h]
      · simp [hf, h]
  | stateUpdate pid st => exact h
  | gameOver pid st => rfl
  | disconnect pid => exact h

theorem countStart_single_send (sid : String) (sock : Nat) (m : Msg) :
    countStart sid [Ev.send sock m] = 0 := by
  simp [countStart]

theorem countStart_send_cons (sid : String) (sock : Nat) (m : Msg) (evs : List Ev) :
    countStart sid (Ev.send sock m :: evs) = countStart sid evs := by
  simp [countStart, List.countP_cons]

theorem countStart_resume_own (sid : String) (sess : GameSession) (pid : String)
    (sock : Nat) : countStart sid (resume_own_events sess pid sock) = 0 := by
  unfold resume_own_events
  cases alookup pid sess.lastStates with
  | some st => simp [countStart]
  | none => rfl

theorem countStart_resume_opp (sid : String) (sess : GameSession)
    (opponent : Option (String × String)) (sock : Nat) :
    countStart sid (resume_opp_events sess opponent sock) = 0 := by
  unfold resume_opp_events
  cases opponent with
  | none => rfl
  | some q =>
      dsimp only
      cases alookup q.1 sess.lastStates with
      | some st => simp [countStart]
      | none => rfl

theorem countStart_session_connect (sess : GameSession) (pid : String) (sock : Nat) :
    countStart sess.id (session_connect sess pid sock).2 =
      if (aupdate pid sock sess.connections).length = sess.players.length ∧
          sess.started = false then 1 else 0 := by
  unfold session_connect
  dsimp only
  by_cases h1 : (aupdate pid sock sess.connections).length = sess.players.length
  · by_cases h2 : sess.started = false
    · simp [h1, h2, countStart_append, countStart_single_send, countStart_send_cons,
        countStart_resume_own, countStart_resume_opp, countStart_session_broadcast]
    · simp [h1, h2, countStart_append, countStart_single_send, countStart_send_cons,
        countStart_resume_own, countStart_resume_opp, countStart_session_broadcast]
  · simp [h1, countStart_append, countStart_single_send, countStart_send_cons,
      countStart_resume_own, countStart_resume_opp]

theorem session_connect_started (sess : GameSession) (pid : String) (sock : Nat) :
    (session_connect sess pid sock).1.started =
      (if (aupdate pid sock sess.connections).length = sess.players.length ∧
          sess.started = false then true else sess.started) := by
  unfold session_connect
  dsimp only
  by_cases hf : (aupdate pid sock sess.connections).length = sess.players.length ∧
      sess.started = false
  · simp [hf]
  · simp [hf]

theorem session_step_count_bound (sess : GameSession) (op : GOp) :
    countStart sess.id (session_step sess op).2 +
      (if (session_step sess op).1.started = true then 0 else 1) ≤
      (if sess.started = true then 0 else 1) := by
  cases op with
  | connect pid sock =>
      show countStart sess.id (session_connect sess pid sock).2 +
        (if (session_connect sess pid sock).1.started = true then 0 else 1) ≤ _
      rw [countStart_session_connect, session_connect_started]
      by_cases hf : (aupdate pid sock sess.connections).length = sess.players.length ∧
          sess.started = false
      · simp [hf, hf.2]
      · simp only [hf, if_false]
        cases hst : sess.started with
        | true => simp
        | false => simp
  | stateUpdate pid st =>
      show countStart sess.id (session_forward_state sess pid st).2 +
        (if (session_forward_state sess pid st).1.started = true then 0 else 1) ≤ _
      unfold session_forward_state
      dsimp only
      rw [countStart_send_to_opponent]
      simp
  | gameOver pid st =>
      show countStart sess.id (session_forward_game_over sess pid st).2 +
        (if (session_forward_game_over sess pid st).1.started = true then 0 else 1) ≤ _
      unfold session_forward_game_over
      dsimp only
      rw [countStart_send_to_opponent]
      simp
  | disconnect pid =>
      show countStart sess.id (session_disconnect sess pid).2 +
        (if (session_disconnect sess pid).1.started = true then 0 else 1) ≤ _
      unfold session_disconnect
      dsimp only
      rw [countStart_session_broadcast]
      simp

theorem session_run_count_bound (sess : GameSession) (ops : List GOp) :
    countStart sess.id (session_run sess ops).2 +
      (if (session_run sess ops).1.started = true then 0 else 1) ≤
      (if sess.started = true then 0 else 1) := by
  induction ops generalizing sess with
  | nil => simp [session_run, countStart]
  | cons op ops ih =>
      unfold session_run
      dsimp only
      rw [countStart_append]
      have hid : (session_step sess op).1.id = sess.id := session_step_id sess op
      have h1 := session_step_count_bound sess op
      have h2 := ih (session_step sess op).1
      rw [hid] at h2
      generalize ha : countStart sess.id (session_step sess op).2 = a at h1 ⊢
      generalize hb :
        countStart sess.id (session_run (session_step sess op).1 ops).2 = b at h2 ⊢
      generalize hx :
        (if (session_step sess op).1.started = true then 0 else 1) = x at h1 h2
      generalize hy :
        (if (session_run (session_step sess op).1 ops).1.started = true then 0 else 1) = y
        at h2 ⊢
      omega

theorem start_not_mem_resume_own (sess : GameSession) (pid : String) (sock w : Nat) :
    Ev.send w Msg.start ∉ resume_own_events sess pid sock := by
  unfold resume_own_events
  cases alookup pid sess.lastStates with
  | some st => simp
  | none => simp

theorem start_not_mem_resume_opp (sess : GameSession)
    (opponent : Option (String × String)) (sock w : Nat) :
    Ev.send w Msg.start ∉ resume_opp_events sess opponent sock := by
  unfold resume_opp_events
  cases opponent with
  | none => simp
  | some q =>
      dsimp only
      cases alookup q.1 sess.lastStates with
      | some st => simp
      | none => simp

/-- Claim C3: over any sequence of operations on a session, the broadcast of
a start payload to both connections is emitted at most once while the
session starts unstarted and never while it is already started; one connect
emits it exactly when the connection count reaches the member count with
started still false, and started is set true at that moment; a connect that
refills the session when it is already started instead broadcasts
opponent_returned with the returning id (excluding the returner) and sends
the private start to the returning socket only. -/
theorem C3_start_broadcast_once (sess : GameSession) (ops : List GOp) (pid : String)
    (sock : Nat) :
    (sess.started = false → countStart sess.id (session_run sess ops).2 ≤ 1) ∧
    (sess.started = true → countStart sess.id (session_run sess ops).2 = 0) ∧
    (countStart sess.id (session_connect sess pid sock).2 =
      if (aupdate pid sock sess.connections).length = sess.players.length ∧
          sess.started = false then 1 else 0) ∧
    ((aupdate pid sock sess.connections).length = sess.players.length ∧
        sess.started = false → (session_connect sess pid sock).1.started = true) ∧
    (sess.started = true →
      (aupdate pid sock sess.connections).length = sess.players.length →
      Ev.gameBroadcast sess.id (Msg.opponentReturned pid) ∈
        (session_connect sess pid sock).2 ∧
      Ev.send sock Msg.start ∈ (session_connect sess pid sock).2 ∧
      (∀ w, Ev.send w Msg.start ∈ (session_connect sess pid sock).2 → w = sock)) := by
  refine ⟨?_, ?_, countStart_session_connect sess pid sock, ?_, ?_⟩
  · intro h
    have hb := session_run_count_bound sess ops
    rw [h] at hb
    simp only [Bool.false_eq_true, if_false] at hb
    omega
  · intro h
    have hb := session_run_count_bound sess ops
    rw [h] at hb
    simp only [if_true] at hb
    omega
  · intro hf
    rw [session_connect_started]
    simp [hf]
  · intro hst hfull
    have hns : ¬ ((aupdate pid sock sess.connections).length = sess.players.length ∧
        sess.started = false) := by
      intro hc
      rw [hst] at hc
      exact absurd hc.2 (by simp)
    unfold session_connect
    dsimp only
    simp only [hfull, hst, if_true, hns, if_false, Bool.true_eq_false]
    refine ⟨?_, ?_, ?_⟩
    · simp [session_broadcast]
    · simp
    · intro w hw
      rcases List.mem_append.1 hw with h1 | h8
      swap
      · exact absurd h8 (start_not_mem_resume_opp _ _ _ _)
      rcases List.mem_append.1 h1 with h2 | h7
      swap
      · exact absurd h7 (start_not_mem_resume_own _ _ _ _)
      rcases List.mem_append.1 h2 with h3 | h4
      · simp at h3
      rcases List.mem_append.1 h4 with h5 | h6
      · unfold session_broadcast at h5
        rcases List.mem_cons.1 h5 with h9 | h10
        · simp at h9
        · rcases List.mem_map.1 h10 with ⟨c, _, hc⟩
          simp at hc
      · have h9 := List.mem_singleton.1 h6
        injection h9 with hw1 hw2

/-- Claim C3, witness: a fresh two-member session taken through the trace
connect a, connect b, disconnect b, reconnect b broadcasts start at most
once; the reconnect of b into the already-started session with a still in
broadcasts opponent_returned b to the other member and sends the private
start to socket 6 only. -/
theorem C3_start_broadcast_once_witness :
    countStart "g1" (session_run
      (⟨"g1", [("a", "Ada"), ("b", "Bob")], [], [], false, false⟩ : GameSession)
      [GOp.connect "a" 4, GOp.connect "b" 5, GOp.disconnect "b",
        GOp.connect "b" 6]).2 ≤ 1 ∧
    (Ev.gameBroadcast "g1" (Msg.opponentReturned "b") ∈
      (session_connect
        (⟨"g1", [("a", "Ada"), ("b", "Bob")], [("a", 4)], [], false, true⟩ : GameSession)
        "b" 6).2 ∧
     Ev.send 6 Msg.start ∈
      (session_connect
        (⟨"g1", [("a", "Ada"), ("b", "Bob")], [("a", 4)], [], false, true⟩ : GameSession)
        "b" 6).2 ∧
     (∀ w, Ev.send w Msg.start ∈
        (session_connect
          (⟨"g1", [("a", "Ada"), ("b", "Bob")], [("a", 4)], [], false, true⟩ : GameSession)
          "b" 6).2 → w = 6)) :=
  ⟨(C3_start_broadcast_once
      (⟨"g1", [("a", "Ada"), ("b", "Bob")], [], [], false, false⟩ : GameSession)
      [GOp.connect "a" 4, GOp.connect "b" 5, GOp.disconnect "b", GOp.connect "b" 6]
      "a" 0).1 rfl,
   (C3_start_broadcast_once
      (⟨"g1", [("a", "Ada"), ("b", "Bob")], [("a", 4)], [], false, true⟩ : GameSession)
      [] "b" 6).2.2.2.2 rfl (by decide)⟩

theorem session_run_started_mono (sess : GameSession) (ops : List GOp)
    (h : sess.started = true) : (session_run sess ops).1.started = true := by
  induction ops generalizing sess with
  | nil => exact h
  | cons op ops ih =>
      unfold session_run
      exact ih _ (session_step_started_mono sess op h)

theorem session_run_finished_mono (sess : GameSession) (ops : List GOp)
    (h : sess.finished = true) : (session_run sess ops).1.finished = true := by
  induction ops generalizing sess with
  | nil => exact h
  | cons op ops ih =>
      unfold session_run
      exact ih _ (session_step_finished_mono sess op h)

/-! ### Registry-level operations (for claim C10) -/

/-- One operation of the session registry or of either endpoint handler that
can touch a stored session record. -/
inductive RegOp where
  | connect (player_id : Option String) (game_id : String) (sock : Nat)
  | stateUpdate (game_id player_id : String) (state : Nat)
  | gameOver (game_id player_id : String) (state : Nat)
  | disconnect (game_id player_id : String)
  | create (sid : String) (p1 p2 : LobbyPlayer)
  | removeSess (sid : String)
  | schedCleanup (sid : String)
  | cancelCleanup (sid : String)
  | cleanupFire (sid : String)
deriving DecidableEq, Repr

/-- Dispatch a registry-level operation. -/
def reg_step (gm : GameMgr) : RegOp → GameMgr
  | RegOp.connect pid gid sock => (game_endpoint_connect pid gid sock gm).1
  | RegOp.stateUpdate gid pid st => (forward_state gid pid st gm).1
  | RegOp.gameOver gid pid st => (forward_game_over gid pid st gm).1
  | RegOp.disconnect gid pid => (handle_disconnect gid pid gm).1
  | RegOp.create sid p1 p2 => (create_session p1 p2 sid gm).1
  | RegOp.removeSess sid => remove_session sid gm
  | RegOp.schedCleanup sid => schedule_cleanup sid gm
  | RegOp.cancelCleanup sid => cancel_cleanup sid gm
  | RegOp.cleanupFire sid => delayed_cleanup_fire sid gm

/-- Side condition: the uuid handed to create_session is fresh. -/
def regOpOK (gm : GameMgr) : RegOp → Prop
  | RegOp.create sid _ _ => alookup sid gm.sessions = none
  | _ => True

theorem alookup_aupdate_cases (k k1 : String) (v : α) (l : List (String × α)) :
    alookup k1 (aupdate k v l) = if k1 = k then some v else alookup k1 l := by
  by_cases h : k1 = k
  · subst h
    simp [alookup_aupdate_self]
  · simp [h, alookup_aupdate_ne k k1 v l h]

theorem schedule_cleanup_sessions (sid : String) (gm : GameMgr) :
    (schedule_cleanup sid gm).sessions = gm.sessions := by
  unfold schedule_cleanup
  by_cases h : sid ∈ gm.cleanupTasks
  · simp [h]
  · simp [h]

/-- Claim C10: the started and finished flags of a stored session are monotone
across every operation of the session registry and of both endpoint handlers:
whenever the session is still present after the operation, a flag that was
true stays true (create_session is covered under the freshness of its uuid). -/
theorem C10_flags_monotone (gm : GameMgr) (op : RegOp) (sid : String)
    (sess sess1 : GameSession)
    (hkeys : (gm.sessions.map Prod.fst).Nodup)
    (hok : regOpOK gm op)
    (h : alookup sid gm.sessions = some sess)
    (h1 : alookup sid (reg_step gm op).sessions = some sess1) :
    (sess.started = true → sess1.started = true) ∧
    (sess.finished = true → sess1.finished = true) := by
  cases op with
  | connect pid gid sock =>
      change alookup sid (game_endpoint_connect pid gid sock gm).1.sessions = some sess1
        at h1
      cases hpt : pidTruthy pid with
      | false =>
          have hr : game_endpoint_connect pid gid sock gm = (gm, [], false) := by
            unfold game_endpoint_connect
            simp [hpt]
          rw [hr] at h1
          have hs : sess = sess1 := by
            rw [h] at h1
            exact Option.some.inj h1
          subst hs
          exact ⟨fun hh => hh, fun hh => hh⟩
      | true =>
          cases hx : alookup gid gm.sessions with
          | none =>
              have hr : game_endpoint_connect pid gid sock gm = (gm, [], false) := by
                unfold game_endpoint_connect
                simp [hpt, hx]
              rw [hr] at h1
              have hs : sess = sess1 := by
                rw [h] at h1
                exact Option.some.inj h1
              subst hs
              exact ⟨fun hh => hh, fun hh => hh⟩
          | some sess0 =>
              cases hm : alookup (pid.getD "") sess0.players with
              | none =>
                  have hr : game_endpoint_connect pid gid sock gm = (gm, [], false) := by
                    unfold game_endpoint_connect
                    simp [hpt, hx, hm]
                  rw [hr] at h1
                  have hs : sess = sess1 := by
                    rw [h] at h1
                    exact Option.some.inj h1
                  subst hs
                  exact ⟨fun hh => hh, fun hh => hh⟩
              | some nm =>
                  have hr : (game_endpoint_connect pid gid sock gm).1.sessions =
                      aupdate gid (session_connect sess0 (pid.getD "") sock).1
                        gm.sessions := by
                    unfold game_endpoint_connect
                    simp [hpt, hx, hm]
                  rw [hr, alookup_aupdate_cases] at h1
                  by_cases hsg : sid = gid
                  · simp only [hsg, if_true] at h1
                    have hs0 : sess = sess0 := by
                      rw [hsg] at h
                      rw [h] at hx
                      exact Option.some.inj hx
                    subst hs0
                    have hs1 : sess1 = (session_connect sess (pid.getD "") sock).1 :=
                      (Option.some.inj h1).symm
                    subst hs1
                    exact ⟨session_step_started_mono sess (GOp.connect (pid.getD "") sock),
                      session_step_finished_mono sess (GOp.connect (pid.getD "") sock)⟩
                  · simp only [hsg, if_false] at h1
                    have hs : sess = sess1 := by
                      rw [h] at h1
                      exact Option.some.inj h1
                    subst hs
                    exact ⟨fun hh => hh, fun hh => hh⟩
  | stateUpdate gid pid st =>
      change alookup sid (forward_state gid pid st gm).1.sessions = some sess1 at h1
      cases hx : alookup gid gm.sessions with
      | none =>
          unfold forward_state at h1
          rw [hx] at h1
          have hs : sess = sess1 := by
            rw [h] at h1
            exact Option.some.inj h1
          subst hs
          exact ⟨fun hh => hh, fun hh => hh⟩
      | some sess0 =>
          unfold forward_state at h1
          rw [hx] at h1
          dsimp only at h1
          rw [alookup_aupdate_cases] at h1
          by_cases hsg : sid = gid
          · simp only [hsg, if_true] at h1
            have hs0 : sess = sess0 := by
              rw [hsg] at h
              rw [h] at hx
              exact Option.some.inj hx
            subst hs0
            have hs1 : sess1 =
                { sess with lastStates := aupdate pid st sess.lastStates } :=
              (Option.some.inj h1).symm
            subst hs1
            exact ⟨fun hh => hh, fun hh => hh⟩
          · simp only [hsg, if_false] at h1
            have hs : sess = sess1 := by
              rw [h] at h1
              exact Option.some.inj h1
            subst hs
            exact ⟨fun hh => hh, fun hh => hh⟩
  | gameOver gid pid st =>
      change alookup sid (forward_game_over gid pid st gm).1.sessions = some sess1 at h1
      cases hx : alookup gid gm.sessions with
      | none =>
          unfold forward_game_over at h1
          rw [hx] at h1
          have hs : sess = sess1 := by
            rw [h] at h1
            exact Option.some.inj h1
          subst hs
          exact ⟨fun hh => hh, fun hh => hh⟩
      | some sess0 =>
          unfold forward_game_over at h1
          rw [hx] at h1
          dsimp only at h1
          rw [alookup_aupdate_cases] at h1
          by_cases hsg : sid = gid
          · simp only [hsg, if_true] at h1
            have hs0 : sess = sess0 := by
              rw [hsg] at h
              rw [h] at hx
              exact Option.some.inj hx
            subst hs0
            have hs1 : sess1 = { sess with
                lastStates := aupdate pid st sess.lastStates
                finished := true } :=
              (Option.some.inj h1).symm
            subst hs1
            exact ⟨fun hh => hh, fun _ => rfl⟩
          · simp only [hsg, if_false] at h1
            have hs : sess = sess1 := by
              rw [h] at h1
              exact Option.some.inj h1
            subst hs
            exact ⟨fun hh => hh, fun hh => hh⟩
  | disconnect gid pid =>
      change alookup sid (handle_disconnect gid pid gm).1.sessions = some sess1 at h1
      cases hx : alookup gid gm.sessions with
      | none =>
          unfold handle_disconnect at h1
          rw [hx] at h1
          have hs : sess = sess1 := by
            rw [h] at h1
            exact Option.some.inj h1
          subst hs
          exact ⟨fun hh => hh, fun hh => hh⟩
      | some sess0 =>
          have hsessions : (handle_disconnect gid pid gm).1.sessions =
              aupdate gid ({ sess0 with
                connections := aerase pid sess0.connections }) gm.sessions := by
            unfold handle_disconnect
            rw [hx]
            dsimp only
            by_cases hz : (aerase pid sess0.connections).length = 0
            · simp only [hz, if_true]
              rw [schedule_cleanup_sessions]
            · simp only [hz, if_false]
          rw [hsessions, alookup_aupdate_cases] at h1
          by_cases hsg : sid = gid
          · simp only [hsg, if_true] at h1
            have hs0 : sess = sess0 := by
              rw [hsg] at h
              rw [h] at hx
              exact Option.some.inj hx
            subst hs0
            have hs1 : sess1 =
                { sess with connections := aerase pid sess.connections } :=
              (Option.some.inj h1).symm
            subst hs1
            exact ⟨fun hh => hh, fun hh => hh⟩
          · simp only [hsg, if_false] at h1
            have hs : sess = sess1 := by
              rw [h] at h1
              exact Option.some.inj h1
            subst hs
            exact ⟨fun hh => hh, fun hh => hh⟩
  | create sid1 p1 p2 =>
      change alookup sid1 gm.sessions = none at hok
      change alookup sid (create_session p1 p2 sid1 gm).1.sessions = some sess1 at h1
      unfold create_session at h1
      dsimp only at h1
      rw [alookup_aupdate_cases] at h1
      by_cases hsg : sid = sid1
      · rw [hsg] at h
        rw [h] at hok
        cases hok
      · simp only [hsg, if_false] at h1
        have hs : sess = sess1 := by
          rw [h] at h1
          exact Option.some.inj h1
        subst hs
        exact ⟨fun hh => hh, fun hh => hh⟩
  | removeSess sid1 =>
      change alookup sid (remove_session sid1 gm).sessions = some sess1 at h1
      unfold remove_session at h1
      dsimp only at h1
      by_cases hsg : sid = sid1
      · rw [hsg] at h1
        rw [alookup_aerase_self sid1 gm.sessions hkeys] at h1
        cases h1
      · rw [alookup_aerase_ne sid1 sid gm.sessions hsg] at h1
        have hs : sess = sess1 := by
          rw [h] at h1
          exact Option.some.inj h1
        subst hs
        exact ⟨fun hh => hh, fun hh => hh⟩
  | schedCleanup sid1 =>
      change alookup sid (schedule_cleanup sid1 gm).sessions = some sess1 at h1
      rw [schedule_cleanup_sessions] at h1
      have hs : sess = sess1 := by
        rw [h] at h1
        exact Option.some.inj h1
      subst hs
      exact ⟨fun hh => hh, fun hh => hh⟩
  | cancelCleanup sid1 =>
      change alookup sid (cancel_cleanup sid1 gm).sessions = some sess1 at h1
      unfold cancel_cleanup at h1
      have hs : sess = sess1 := by
        rw [h] at h1
        exact Option.some.inj h1
      subst hs
      exact ⟨fun hh => hh, fun hh => hh⟩
  | cleanupFire sid1 =>
      change alookup sid (delayed_cleanup_fire sid1 gm).sessions = some sess1 at h1
      unfold delayed_cleanup_fire at h1
      cases hx : alookup sid1 gm.sessions with
      | none =>
          rw [hx] at h1
          dsimp only at h1
          have hs : sess = sess1 := by
            rw [h] at h1
            exact Option.some.inj h1
          subst hs
          exact ⟨fun hh => hh, fun hh => hh⟩
      | some sess0 =>
          rw [hx] at h1
          dsimp only at h1
          by_cases hc : sess0.connections.length = 0 ∨ sess0.finished = true
          · rw [if_pos hc] at h1
            unfold remove_session at h1
            dsimp only at h1
            by_cases hsg : sid = sid1
            · rw [hsg] at h1
              rw [alookup_aerase_self sid1 gm.sessions hkeys] at h1
              cases h1
            · rw [alookup_aerase_ne sid1 sid gm.sessions hsg] at h1
              have hs : sess = sess1 := by
                rw [h] at h1
                exact Option.some.inj h1
              subst hs
              exact ⟨fun hh => hh, fun hh => hh⟩
          · rw [if_neg hc] at h1
            have hs : sess = sess1 := by
              rw [h] at h1
              exact Option.some.inj h1
            subst hs
            exact ⟨fun hh => hh, fun hh => hh⟩

/-- Claim C10, witness: relaying a state_update through a started session
keeps its started flag true. -/
theorem C10_flags_monotone_witness :
    (⟨"g1", [("a", "Ada"), ("b", "Bob")], [("a", 4), ("b", 5)], [("a", 7)], false, true⟩ :
      GameSession).started = true :=
  (C10_flags_monotone
    (GameMgr.mk [("g1", ⟨"g1", [("a", "Ada"), ("b", "Bob")], [("a", 4), ("b", 5)], [],
      false, true⟩)] [])
    (RegOp.stateUpdate "g1" "a" 7) "g1"
    (⟨"g1", [("a", "Ada"), ("b", "Bob")], [("a", 4), ("b", 5)], [], false, true⟩ :
      GameSession)
    (⟨"g1", [("a", "Ada"), ("b", "Bob")], [("a", 4), ("b", 5)], [("a", 7)], false, true⟩ :
      GameSession)
    (by decide) trivial (by decide) (by decide)).1 rfl

theorem register_player_reconnect_spec (ws : Nat) (name : String) (pid fid : String)
    (s : LobbyState) (p : LobbyPlayer)
    (hpid : pid ≠ "") (hp : alookup pid s.players = some p) :
    register_player ws name (some pid) fid s =
      ({ s with
          players := (aupdate pid ({ p with
            name := if sanitizeName name ≠ "" then sanitizeName name else p.name
            websocket := some ws
            connected := true }) s.players)
          disconnectTasks := removeFirst p.id s.disconnectTasks },
        { p with
          name := if sanitizeName name ≠ "" then sanitizeName name else p.name
          websocket := some ws
          connected := true }) := by
  unfold register_player
  simp [hpid, hp]

theorem register_player_fresh_spec (ws : Nat) (name : String) (pid fid : String)
    (s : LobbyState)
    (hpid : pid ≠ "") (hp : alookup pid s.players = none) :
    register_player ws name (some pid) fid s =
      ({ s with
          players := (aupdate pid ({
            id := pid
            name := if sanitizeName name ≠ "" then sanitizeName name else strTake pid 6
            websocket := some ws
            connected := true } : LobbyPlayer) s.players)
          disconnectTasks := removeFirst pid s.disconnectTasks },
        { id := pid
          name := if sanitizeName name ≠ "" then sanitizeName name else strTake pid 6
          websocket := some ws
          connected := true }) := by
  unfold register_player
  simp [hpid, hp]

/-- Claim C6: registering twice with the same requested id yields exactly one
player record for that id, whose socket is the second socket and whose
connected flag is true; the stored name is overwritten by the second call iff
the second name sanitizes to non-empty, and otherwise keeps the name the
first call stored; and the second call leaves no pending reconnect timer for
the id. -/
theorem C6_register_reconnect (s : LobbyState) (ws ws1 : Nat) (name name1 : String)
    (fid fid1 pid : String)
    (hpid : pid ≠ "")
    (hwf : ∀ q ∈ s.players, q.2.id = q.1)
    (hkeys : (s.players.map Prod.fst).Nodup)
    (htasks : s.disconnectTasks.Nodup) :
    countKey pid (register_player ws1 name1 (some pid) fid1
        (register_player ws name (some pid) fid s).1).1.players = 1 ∧
    alookup pid (register_player ws1 name1 (some pid) fid1
        (register_player ws name (some pid) fid s).1).1.players =
      some (register_player ws1 name1 (some pid) fid1
        (register_player ws name (some pid) fid s).1).2 ∧
    (register_player ws1 name1 (some pid) fid1
        (register_player ws name (some pid) fid s).1).2.websocket = some ws1 ∧
    (register_player ws1 name1 (some pid) fid1
        (register_player ws name (some pid) fid s).1).2.connected = true ∧
    (register_player ws1 name1 (some pid) fid1
        (register_player ws name (some pid) fid s).1).2.name =
      (if sanitizeName name1 ≠ "" then sanitizeName name1
        else (register_player ws name (some pid) fid s).2.name) ∧
    pid ∉ (register_player ws1 name1 (some pid) fid1
        (register_player ws name (some pid) fid s).1).1.disconnectTasks := by
  have hfacts : alookup pid (register_player ws name (some pid) fid s).1.players =
        some (register_player ws name (some pid) fid s).2 ∧
      (register_player ws name (some pid) fid s).2.id = pid ∧
      (((register_player ws name (some pid) fid s).1.players.map Prod.fst).Nodup) ∧
      (register_player ws name (some pid) fid s).1.disconnectTasks.Nodup := by
    cases hp : alookup pid s.players with
    | some p =>
        rw [register_player_reconnect_spec ws name pid fid s p hpid hp]
        dsimp only
        have hid : p.id = pid := hwf (pid, p) (alookup_mem pid p s.players hp)
        exact ⟨alookup_aupdate_self _ _ _, hid,
          keys_nodup_aupdate _ _ _ hkeys,
          nodup_removeFirst _ _ htasks⟩
    | none =>
        rw [register_player_fresh_spec ws name pid fid s hpid hp]
        dsimp only
        exact ⟨alookup_aupdate_self _ _ _, rfl,
          keys_nodup_aupdate _ _ _ hkeys,
          nodup_removeFirst _ _ htasks⟩
  obtain ⟨hlook, hid, hkeys1, htasks1⟩ := hfacts
  rw [register_player_reconnect_spec ws1 name1 pid fid1
    (register_player ws name (some pid) fid s).1
    (register_player ws name (some pid) fid s).2 hpid hlook]
  dsimp only
  rw [hid]
  refine ⟨?_, alookup_aupdate_self _ _ _, rfl, rfl, rfl, ?_⟩
  · exact countKey_eq_one_of_nodup pid _ (keys_nodup_aupdate _ _ _ hkeys1)
      (by rw [alookup_aupdate_self]; rfl)
  · exact not_mem_removeFirst_of_nodup _ _ htasks1

/-- Claim C6, witness: the double registration applied to a lobby that
already holds player a with an armed reconnect timer; the second socket and
an empty second name leave one record with socket 2, connected, the name
stored by the first call, and no timer. -/
theorem C6_register_reconnect_witness :
    countKey "a" (register_player 2 "" (some "a") "f2"
        (register_player 1 "Ada" (some "a") "f1"
          (LobbyState.mk [("a", ⟨"a", "Old", none, false⟩)] [] ["a"])).1).1.players = 1 ∧
    alookup "a" (register_player 2 "" (some "a") "f2"
        (register_player 1 "Ada" (some "a") "f1"
          (LobbyState.mk [("a", ⟨"a", "Old", none, false⟩)] [] ["a"])).1).1.players =
      some (register_player 2 "" (some "a") "f2"
        (register_player 1 "Ada" (some "a") "f1"
          (LobbyState.mk [("a", ⟨"a", "Old", none, false⟩)] [] ["a"])).1).2 ∧
    (register_player 2 "" (some "a") "f2"
        (register_player 1 "Ada" (some "a") "f1"
          (LobbyState.mk [("a", ⟨"a", "Old", none, false⟩)] [] ["a"])).1).2.websocket =
      some 2 ∧
    (register_player 2 "" (some "a") "f2"
        (register_player 1 "Ada" (some "a") "f1"
          (LobbyState.mk [("a", ⟨"a", "Old", none, false⟩)] [] ["a"])).1).2.connected =
      true ∧
    (register_player 2 "" (some "a") "f2"
        (register_player 1 "Ada" (some "a") "f1"
          (LobbyState.mk [("a", ⟨"a", "Old", none, false⟩)] [] ["a"])).1).2.name =
      (if sanitizeName "" ≠ "" then sanitizeName ""
        else (register_player 1 "Ada" (some "a") "f1"
          (LobbyState.mk [("a", ⟨"a", "Old", none, false⟩)] [] ["a"])).2.name) ∧
    "a" ∉ (register_player 2 "" (some "a") "f2"
        (register_player 1 "Ada" (some "a") "f1"
          (LobbyState.mk [("a", ⟨"a", "Old", none, false⟩)] [] ["a"])).1).1.disconnectTasks :=
  C6_register_reconnect
    (LobbyState.mk [("a", ⟨"a", "Old", none, false⟩)] [] ["a"])
    1 2 "Ada" "" "f1" "f2" "a"
    (by decide) (by decide) (by decide) (by decide)

/-! ### Lobby endpoint handler, join branch (sockets/lobby.py) -/

/-- One join message on the lobby socket: the missing name-and-id guard
replies with an error frame and leaves everything untouched; otherwise
register_player runs, the joined reply goes back, and lobby state is
broadcast. The returned option is the player id this socket remembers. -/
def lobby_join (ws : Nat) (name_field : Option String) (playerId_field : Option String)
    (freshId : String) (s : LobbyState) : LobbyState × List Ev × Option String :=
  let incoming := strTrim (name_field.getD "")
  if incoming = "" ∧ pidTruthy playerId_field = false then
    (s, [Ev.send ws (Msg.errorMsg "Name is required")], none)
  else
    let r := register_player ws incoming playerId_field freshId s
    (r.1,
      [Ev.send ws (Msg.joined r.2.id r.2.name (snapshot r.1).1), Ev.broadcastCall],
      some r.2.id)

/-- Claim C9: sanitization trims surrounding whitespace then truncates to at
most 24 code units; a newly created player whose sanitized name is empty is
stored under the first 6 characters of its id (the fresh uuid, or the
requested id when one was supplied but unknown); and a join carrying neither
a usable name nor a playerId is answered with the Name-is-required error and
creates no player. -/
theorem C9_name_sanitization :
    (∀ name, sanitizeName name = strTake (strTrim name) MAX_NAME_LENGTH) ∧
    (∀ ws name fid s, (register_player ws name none fid s).2.name =
      (if sanitizeName name ≠ "" then sanitizeName name else strTake fid 6)) ∧
    (∀ ws name pid fid s, pid ≠ "" → alookup pid s.players = none →
      (register_player ws name (some pid) fid s).2.name =
        (if sanitizeName name ≠ "" then sanitizeName name else strTake pid 6)) ∧
    (∀ ws name_field pid_field fid s,
      strTrim (name_field.getD "") = "" → pidTruthy pid_field = false →
      lobby_join ws name_field pid_field fid s =
        (s, [Ev.send ws (Msg.errorMsg "Name is required")], none)) := by
  refine ⟨?_, ?_, ?_, ?_⟩
  · intro name
    unfold sanitizeName
    by_cases h : name = ""
    · subst h
      rfl
    · simp [h]
  · intro ws name fid s
    unfold register_player
    simp
  · intro ws name pid fid s hpid hp
    rw [register_player_fresh_spec ws name pid fid s hpid hp]
  · intro ws name_field pid_field fid s hname hpid
    unfold lobby_join
    simp [hname, hpid]

/-- Claim C9, witness: whitespace around Alice is trimmed; a 100-character
name is cut to 24 code units; a fresh player with an empty name gets the
first 6 characters of its generated id; a join with a blank name and no id
is refused with the error reply and no state change. -/
theorem C9_name_sanitization_witness :
    sanitizeName "   Alice   " = "Alice" ∧
    (sanitizeName (String.mk (List.replicate 100 'A'))).length = 24 ∧
    (register_player 1 "" none "fid123xyz" LobbyState.init).2.name = "fid123" ∧
    lobby_join 1 (some "   ") none "f1" LobbyState.init =
      (LobbyState.init, [Ev.send 1 (Msg.errorMsg "Name is required")], none) := by
  refine ⟨?_, ?_, ?_, ?_⟩
  · rw [C9_name_sanitization.1]
    decide
  · rw [C9_name_sanitization.1]
    decide
  · rw [C9_name_sanitization.2.1]
    decide
  · exact C9_name_sanitization.2.2.2 1 (some "   ") none "f1" LobbyState.init
      (by decide) (by decide)

/-! ### Lobby broadcast with send outcomes (LobbyManager.broadcast_state) -/

/-- Outcome of one send_json attempt: success, the two errors safe_send would
swallow (peer gone, connection mid-close), or any other exception. -/
inductive SendRes where
  | ok
  | disconnected
  | closing
  | otherErr
deriving DecidableEq, Repr

/-- LobbyManager.broadcast_state: snapshot, attempt a bare send_json to every
live socket collecting every id whose send raised (except Exception catches
them all), then remove each collected player after the loop. -/
def broadcast_state (env : Nat → SendRes) (s : LobbyState) : LobbyState × List Ev :=
  let snap := snapshot s
  let stale := (snap.2.filter (fun q => env q.2 ≠ SendRes.ok)).map Prod.fst
  (stale.foldl (fun st pid => remove_player pid st) s,
    snap.2.map (fun q => Ev.send q.2 (Msg.lobbyState snap.1)))

theorem aerase_keys_sublist (k : String) (l : List (String × α)) :
    ((aerase k l).map Prod.fst).Sublist (l.map Prod.fst) := by
  induction l with
  | nil => simp [aerase]
  | cons q rest ih =>
      by_cases hq : q.1 = k
      · simp only [aerase, hq, if_true, List.map_cons]
        exact List.sublist_cons_self _ _
      · simp only [aerase, hq, if_false, List.map_cons]
        exact ih.cons₂ _

theorem alookup_removeAll (ids : List String) (s : LobbyState) (k : String)
    (hkeys : (s.players.map Prod.fst).Nodup) :
    alookup k (ids.foldl (fun st pid => remove_player pid st) s).players =
      (if k ∈ ids then none else alookup k s.players) := by
  induction ids generalizing s with
  | nil => simp
  | cons i rest ih =>
      have hkeys1 : ((remove_player i s).players.map Prod.fst).Nodup :=
        hkeys.sublist (aerase_keys_sublist i s.players)
      have hstep : (i :: rest).foldl (fun st pid => remove_player pid st) s =
          rest.foldl (fun st pid => remove_player pid st) (remove_player i s) := rfl
      rw [hstep, ih (remove_player i s) hkeys1]
      by_cases hr : k ∈ rest
      · simp [hr]
      · by_cases hk : k = i
        · subst hk
          have : alookup k (remove_player k s).players = none :=
            alookup_aerase_self k s.players hkeys
          simp [hr, this]
        · have : alookup k (remove_player i s).players = alookup k s.players :=
            alookup_aerase_ne i k s.players hk
          simp [hr, hk, this]

theorem mem_keyNodup_unique (l : List (String × α)) (k : String) (a b : α)
    (hkeys : (l.map Prod.fst).Nodup) (ha : (k, a) ∈ l) (hb : (k, b) ∈ l) : a = b := by
  induction l with
  | nil => simp at ha
  | cons q rest ih =>
      simp only [List.map_cons, List.nodup_cons] at hkeys
      rcases List.mem_cons.1 ha with ha1 | ha1
      · rcases List.mem_cons.1 hb with hb1 | hb1
        · have hab := ha1.trans hb1.symm
          injection hab with h1 h2
        · exfalso
          apply hkeys.1
          have : q.1 = k := by rw [← ha1]
          rw [this]
          exact List.mem_map.2 ⟨(k, b), hb1, rfl⟩
      · rcases List.mem_cons.1 hb with hb1 | hb1
        · exfalso
          apply hkeys.1
          have : q.1 = k := by rw [← hb1]
          rw [this]
          exact List.mem_map.2 ⟨(k, a), ha1, rfl⟩
        · exact ih hkeys.2 ha1 hb1

/-- Claim C8, counterexample: a player whose socket raises a peer-gone error
(one of the silent kinds safe_send would swallow) IS evicted by
broadcast_state, refuting the claim that only unexpected errors beyond the
silent cases evict. -/
theorem C8_broadcast_eviction_counterexample :
    alookup "a" (LobbyState.mk [("a", ⟨"a", "Ada", some 1, true⟩)] [] []).players =
      some ⟨"a", "Ada", some 1, true⟩ ∧
    alookup "a" (broadcast_state
      (fun sock => if sock = 1 then SendRes.disconnected else SendRes.ok)
      (LobbyState.mk [("a", ⟨"a", "Ada", some 1, true⟩)] [] [])).1.players = none := by
  decide

/-- Claim C8 (amended): broadcast_state attempts the lobby_state payload on
every socket of the snapshot directly (send_json, not safeSend), and evicts
via removePlayer exactly the players whose send raised ANY exception — the
silent kinds included; failures are collected during the loop and the
removals run after it, so every snapshot socket is attempted regardless of
earlier failures. -/
theorem C8_broadcast_eviction_amended (env : Nat → SendRes) (s : LobbyState)
    (hkeys : (s.players.map Prod.fst).Nodup) :
    (broadcast_state env s).2 =
      (snapshot s).2.map (fun q => Ev.send q.2 (Msg.lobbyState (snapshot s).1)) ∧
    (∀ pid sock, (pid, sock) ∈ (snapshot s).2 →
      (env sock ≠ SendRes.ok →
        alookup pid (broadcast_state env s).1.players = none) ∧
      (env sock = SendRes.ok →
        alookup pid (broadcast_state env s).1.players = alookup pid s.players)) := by
  have hsnapkeys : ((snapshot s).2.map Prod.fst).Nodup := by
    unfold snapshot
    dsimp only
    rw [List.map_map]
    have : (Prod.fst ∘ fun q : String × LobbyPlayer => (q.1, q.2.websocket.getD 0)) =
        Prod.fst := by
      funext q
      rfl
    rw [this]
    exact hkeys.sublist ((List.filter_sublist _).map _)
  constructor
  · rfl
  · intro pid sock hmem
    constructor
    · intro henv
      show alookup pid (((((snapshot s).2.filter
          (fun q => env q.2 ≠ SendRes.ok)).map Prod.fst).foldl
          (fun st pid => remove_player pid st) s)).players = none
      rw [alookup_removeAll _ _ _ hkeys]
      have hin : pid ∈ ((snapshot s).2.filter
          (fun q => env q.2 ≠ SendRes.ok)).map Prod.fst := by
        refine List.mem_map.2 ⟨(pid, sock), ?_, rfl⟩
        rw [List.mem_filter]
        exact ⟨hmem, by simp [henv]⟩
      rw [if_pos hin]
    · intro henv
      show alookup pid (((((snapshot s).2.filter
          (fun q => env q.2 ≠ SendRes.ok)).map Prod.fst).foldl
          (fun st pid => remove_player pid st) s)).players = alookup pid s.players
      rw [alookup_removeAll _ _ _ hkeys]
      have hout : pid ∉ ((snapshot s).2.filter
          (fun q => env q.2 ≠ SendRes.ok)).map Prod.fst := by
        intro hin
        rcases List.mem_map.1 hin with ⟨q, hq, hq1⟩
        rw [List.mem_filter] at hq
        have hq2 : (pid, q.2) ∈ (snapshot s).2 := by
          have : q = (pid, q.2) := by
            rw [← hq1]
          rw [← this]
          exact hq.1
        have : q.2 = sock := mem_keyNodup_unique (snapshot s).2 pid q.2 sock
          hsnapkeys hq2 hmem
        rw [this] at hq
        simp [henv] at hq
      rw [if_neg hout]

/-- Claim C8, witness: with Ada on socket 1 (send ok) and Bob on socket 2
(send raising), the broadcast attempts both sockets, Bob is evicted and Ada
survives. -/
theorem C8_broadcast_eviction_witness :
    ((broadcast_state (fun sock => if sock = 2 then SendRes.otherErr else SendRes.ok)
        (LobbyState.mk [("a", ⟨"a", "Ada", some 1, true⟩),
          ("b", ⟨"b", "Bob", some 2, true⟩)] [] [])).2 =
      (snapshot (LobbyState.mk [("a", ⟨"a", "Ada", some 1, true⟩),
          ("b", ⟨"b", "Bob", some 2, true⟩)] [] [])).2.map
        (fun q => Ev.send q.2 (Msg.lobbyState
          (snapshot (LobbyState.mk [("a", ⟨"a", "Ada", some 1, true⟩),
            ("b", ⟨"b", "Bob", some 2, true⟩)] [] [])).1))) ∧
    alookup "b" (broadcast_state
      (fun sock => if sock = 2 then SendRes.otherErr else SendRes.ok)
      (LobbyState.mk [("a", ⟨"a", "Ada", some 1, true⟩),
        ("b", ⟨"b", "Bob", some 2, true⟩)] [] [])).1.players = none ∧
    alookup "a" (broadcast_state
      (fun sock => if sock = 2 then SendRes.otherErr else SendRes.ok)
      (LobbyState.mk [("a", ⟨"a", "Ada", some 1, true⟩),
        ("b", ⟨"b", "Bob", some 2, true⟩)] [] [])).1.players =
      alookup "a" (LobbyState.mk [("a", ⟨"a", "Ada", some 1, true⟩),
        ("b", ⟨"b", "Bob", some 2, true⟩)] [] []).players := by
  refine ⟨(C8_broadcast_eviction_amended _ _ (by decide)).1, ?_, ?_⟩
  · exact ((C8_broadcast_eviction_amended _ _ (by decide)).2 "b" 2 (by decide)).1
      (by decide)
  · exact ((C8_broadcast_eviction_amended _ _ (by decide)).2 "a" 1 (by decide)).2
      (by decide)

/-! ### Matchmaker (LobbyManager.try_matchmake, both source variants) -/

/-- ready_ids recomputed each iteration: queue order, ids that are present
and connected. -/
def eligible (s : LobbyState) : List String :=
  s.queue.filter (fun pid =>
    match alookup pid s.players with
    | some p => p.connected
    | none => false)

/-- The while loop of try_matchmake. Each iteration strictly shrinks the
queue, so fuel equal to the initial queue length plus one is never
exhausted; the fuel-zero fallback mirrors stopping. supply provides the
fresh uuid of the k-th created session. -/
def matchLoopF : Nat → LobbyState → GameMgr → (Nat → String) → Nat →
    LobbyState × GameMgr × List (LobbyPlayer × LobbyPlayer × String)
  | 0, s, gm, _, _ => (s, gm, [])
  | Nat.succ fuel, s, gm, supply, k =>
      match eligible s with
      | [] => (s, gm, [])
      | [_] => (s, gm, [])
      | first_id :: second_id :: _ =>
          let queue1 := s.queue.filter (fun pid => pid ≠ first_id ∧ pid ≠ second_id)
          let s1 := { s with queue := queue1 }
          match alookup first_id s.players, alookup second_id s.players with
          | some p1, some p2 =>
              let sid := supply k
              let r := create_session p1 p2 sid gm
              let rest := matchLoopF fuel s1 r.1 supply (k + 1)
              (rest.1, rest.2.1, (p1, p2, sid) :: rest.2.2)
          | _, _ => matchLoopF fuel s1 gm supply k

theorem length_filter_lt (p : α → Bool) (l : List α) (a : α)
    (ha : a ∈ l) (hpa : p a = false) : (l.filter p).length < l.length := by
  induction l with
  | nil => cases ha
  | cons x xs ih =>
      rcases List.mem_cons.1 ha with h | h
      · subst h
        simp only [List.filter_cons, hpa, Bool.false_eq_true, if_false]
        exact Nat.lt_succ_of_le (List.length_filter_le _ _)
      · by_cases hx : p x
        · simp only [List.filter_cons, hx, if_true, List.length_cons]
          exact Nat.succ_lt_succ (ih h)
        · simp only [List.filter_cons, hx, Bool.false_eq_true, if_false,
            List.length_cons]
          exact Nat.lt_succ_of_lt (ih h)

/-- Each iteration of the try_matchmake loop strictly shrinks the queue: the
popped first id is in the queue and is filtered out. -/
theorem matchLoop_queue_decrease (s : LobbyState) (a b : String) (rest : List String)
    (h : eligible s = a :: b :: rest) :
    (s.queue.filter (fun pid => pid ≠ a ∧ pid ≠ b)).length < s.queue.length := by
  have ha : a ∈ s.queue := by
    have hmem : a ∈ eligible s := by
      rw [h]
      exact List.mem_cons_self _ _
    exact List.mem_of_mem_filter hmem
  apply length_filter_lt _ _ a ha
  simp

/-- The fuel never runs out: beyond queue length the result is
fuel-independent, so the fuel-zero fallback is unreachable from
try_matchmake's initial fuel. -/
theorem matchLoopF_fuel_stable (fuel1 : Nat) :
    ∀ fuel2 s gm supply k, s.queue.length < fuel1 → s.queue.length < fuel2 →
    matchLoopF fuel1 s gm supply k = matchLoopF fuel2 s gm supply k := by
  induction fuel1 with
  | zero =>
      intro fuel2 s gm supply k h1 h2
      cases h1
  | succ f1 ih =>
      intro fuel2 s gm supply k h1 h2
      cases fuel2 with
      | zero => cases h2
      | succ f2 =>
          show matchLoopF (f1 + 1) s gm supply k = matchLoopF (f2 + 1) s gm supply k
          unfold matchLoopF
          cases helig : eligible s with
          | nil => rfl
          | cons a tl =>
              cases tl with
              | nil => rfl
              | cons b rest =>
                  dsimp only
                  have hdec := matchLoop_queue_decrease s a b rest helig
                  have hq1 : (s.queue.filter
                      (fun pid => pid ≠ a ∧ pid ≠ b)).length < f1 :=
                    Nat.lt_of_lt_of_le hdec (Nat.lt_succ_iff.1 h1)
                  have hq2 : (s.queue.filter
                      (fun pid => pid ≠ a ∧ pid ≠ b)).length < f2 :=
                    Nat.lt_of_lt_of_le hdec (Nat.lt_succ_iff.1 h2)
                  cases hl1 : alookup a s.players with
                  | none =>
                      cases hl2 : alookup b s.players with
                      | none =>
                          dsimp only
                          exact ih f2 ⟨s.players,
                            s.queue.filter (fun pid => pid ≠ a ∧ pid ≠ b),
                            s.disconnectTasks⟩ gm supply k hq1 hq2
                      | some p2 =>
                          dsimp only
                          exact ih f2 ⟨s.players,
                            s.queue.filter (fun pid => pid ≠ a ∧ pid ≠ b),
                            s.disconnectTasks⟩ gm supply k hq1 hq2
                  | some p1 =>
                      cases hl2 : alookup b s.players with
                      | none =>
                          dsimp only
                          exact ih f2 ⟨s.players,
                            s.queue.filter (fun pid => pid ≠ a ∧ pid ≠ b),
                            s.disconnectTasks⟩ gm supply k hq1 hq2
                      | some p2 =>
                          dsimp only
                          have heq := ih f2 ⟨s.players,
                            s.queue.filter (fun pid => pid ≠ a ∧ pid ≠ b),
                            s.disconnectTasks⟩
                            (create_session p1 p2 (supply k) gm).1 supply (k + 1)
                            hq1 hq2
                          rw [heq]

/-- LobbyManager.try_matchmake as in services/lobby_manager.py: after the
loop, if any matches were formed, one broadcast_state call, then one
match_found notification per matched pair. -/
def try_matchmake (s : LobbyState) (gm : GameMgr) (supply : Nat → String) :
    LobbyState × GameMgr × List Ev :=
  let r := matchLoopF (s.queue.length + 1) s gm supply 0
  (r.1, r.2.1,
    if r.2.2.isEmpty then []
    else Ev.broadcastCall :: r.2.2.flatMap (fun t => notify_match_found t.2.2 t.1 t.2.1))

/-- LobbyManager.try_matchmake as in services/managers.py: the identical
post-loop block appears twice in the source, so the broadcast and the
notifications are emitted twice. -/
def try_matchmake_managers (s : LobbyState) (gm : GameMgr) (supply : Nat → String) :
    LobbyState × GameMgr × List Ev :=
  let r := matchLoopF (s.queue.length + 1) s gm supply 0
  let evs : List Ev :=
    if r.2.2.isEmpty then []
    else Ev.broadcastCall :: r.2.2.flatMap (fun t => notify_match_found t.2.2 t.1 t.2.1)
  (r.1, r.2.1, evs ++ evs)

/-- Claim C1: with Ada and Bob ready and connected, the lobby_manager.py
variant of try_matchmake emits one broadcast_state call and exactly one
match_found per member (carrying the session id and the OTHER member's id
and name), while the managers.py variant emits the whole block twice — two
broadcast_state calls and two match_found frames per member — violating the
claim on that source variant. -/
theorem C1_matchmake_double_broadcast_bug :
    (try_matchmake
      (LobbyState.mk [("a", ⟨"a", "Ada", some 1, true⟩),
        ("b", ⟨"b", "Bob", some 2, true⟩)] ["a", "b"] [])
      GameMgr.init (fun _ => "g1")).2.2 =
      [Ev.broadcastCall, Ev.send 1 (Msg.matchFound "g1" "b" "Bob"),
        Ev.send 2 (Msg.matchFound "g1" "a" "Ada")] ∧
    (try_matchmake_managers
      (LobbyState.mk [("a", ⟨"a", "Ada", some 1, true⟩),
        ("b", ⟨"b", "Bob", some 2, true⟩)] ["a", "b"] [])
      GameMgr.init (fun _ => "g1")).2.2 =
      [Ev.broadcastCall, Ev.send 1 (Msg.matchFound "g1" "b" "Bob"),
        Ev.send 2 (Msg.matchFound "g1" "a" "Ada"),
        Ev.broadcastCall, Ev.send 1 (Msg.matchFound "g1" "b" "Bob"),
        Ev.send 2 (Msg.matchFound "g1" "a" "Ada")] ∧
    ((try_matchmake_managers
      (LobbyState.mk [("a", ⟨"a", "Ada", some 1, true⟩),
        ("b", ⟨"b", "Bob", some 2, true⟩)] ["a", "b"] [])
      GameMgr.init (fun _ => "g1")).2.2.countP
        (fun e => decide (e = Ev.broadcastCall)) = 2) := by
  decide

end SuperbGame
